import Mathlib

/-!
# Verification of the easytestwrite-wdio core against its specification

Shallow embedding of the repository's core components:

* the cross-platform locator model (`PageElement` in
  `src/runtime/mobile-actions.ts`): buckets of canonical WDIO selector
  strings, normalization, resolution (`toSelector` / `selectors`),
  fallback appending (`withFallbacks`), the text factories
  (`byTextExact` / `byTextContains`) and the string-literal escaping
  helpers (`quoteJava` / `quoteNS`);
* the device lifecycle manager (`DeviceLauncherService` in the WDIO
  service module): Android start-or-heal with retry/backoff, the boot
  path, and the iOS simulator start path, modelled as trace-producing
  state transformers over an explicit environment of external command
  outcomes (adb / emulator / simctl results);
* the diagnostics bundle collector (`collectFailureBundle` in
  `src/runtime/diagnostics.ts`), modelled as a pure function of the
  probe outcomes.

External effects (shell commands, driver calls, wall-clock polling) are
modelled by environment records carrying each probe's outcome; pure
computations are transliterated from the TypeScript.
-/

/-! ## Basic JS-style helpers -/

/-- JS truthiness for an optional string: `undefined`/`null` and the empty
string are falsy.  `strTruthy o` is `some s` exactly when `o` holds a
non-empty string.  Used to model `a || b` chains over strings. -/
def strTruthy : Option String → Option String
  | some s => if s = "" then none else some s
  | none => none

/-- Fuel-driven splitter core: split `l` at each non-overlapping occurrence
of the (non-empty) separator, left to right.  Structural recursion on the
fuel keeps it kernel-reducible; `fuel = l.length` always suffices because
each step consumes at least one character. -/
def splitOnFuel (sep : List Char) : Nat → List Char → List Char → List (List Char)
  | _, [], acc => [acc.reverse]
  | 0, l, acc => [acc.reverse ++ l]
  | fuel + 1, c :: cs, acc =>
    if sep.isPrefixOf (c :: cs) && !sep.isEmpty then
      acc.reverse :: splitOnFuel sep fuel (cs.drop (sep.length - 1)) []
    else
      splitOnFuel sep fuel cs (c :: acc)

/-- `String.prototype.split` / `String.splitOn` for a non-empty separator
(the only way the source uses it). -/
def splitString (sep s : String) : List String :=
  (splitOnFuel sep.data s.data.length s.data []).map String.mk

/-- `String.prototype.startsWith`. -/
def strStartsWith (s pre : String) : Bool :=
  pre.data.isPrefixOf s.data

/-- `String.prototype.toLowerCase` (ASCII, which is all the source
compares). -/
def lowerString (s : String) : String :=
  String.mk (s.data.map Char.toLower)

/-- Decimal digit parser for the numeric TCC columns. -/
def parseNatChars (l : List Char) : Option Nat :=
  if l = [] then none
  else l.foldl (fun acc c =>
    acc.bind fun n => if c.isDigit then some (n * 10 + (c.toNat - 48)) else none)
    (some 0)

/-- JS `Number(...)` on an integer-looking column (approximation: the TCC
columns are small non-negative integers; anything else is `NaN` =
`none`). -/
def parseIntString (s : String) : Option Int :=
  match s.data with
  | '-' :: rest => (parseNatChars rest).map fun n => -(n : Int)
  | l => (parseNatChars l).map fun n => (n : Int)

/-- The two mobile platforms handled by the library. -/
inductive Platform where
  | android
  | ios
  deriving DecidableEq, Repr

/-! ## Locator model (`PageElement`, mobile-actions.ts)

Selectors are stored in canonical WDIO string form in three buckets.
`normalizeOne`/`normalizeList` mirror the constructor-time normalization.
-/

/-- `LocatorInput` from mobile-actions.ts: a canonical WDIO string selector
or an Appium-style `{using, value}` pair. -/
inductive LocatorInput where
  | str (s : String)
  | usingValue (u v : String)
  deriving DecidableEq, Repr

/-- Character-level trim (leading and trailing whitespace removed), the
semantics of JS `String.prototype.trim` used by `normalizeOne`. -/
def trimChars (l : List Char) : List Char :=
  ((l.dropWhile Char.isWhitespace).reverse.dropWhile Char.isWhitespace).reverse

/-- String-level trim via `trimChars`. -/
def trimString (s : String) : String :=
  String.mk (trimChars s.data)

/-- WDIO: accessibility id becomes `"~value"` (`toAccId`). -/
def toAccId (v : String) : String := "~" ++ v

/-- WDIO: Android UIAutomator expression becomes `"android=<expr>"`
(`toAndroidUIA`). -/
def toAndroidUIA (expr : String) : String := "android=" ++ expr

/-- WDIO: iOS predicate becomes `"-ios predicate string:<pred>"`
(`toIOSPredicate`). -/
def toIOSPredicate (pred : String) : String := "-ios predicate string:" ++ pred

/-- WDIO: iOS class chain becomes `"-ios class chain:<chain>"`
(`toIOSClassChain`). -/
def toIOSClassChain (chain : String) : String := "-ios class chain:" ++ chain

/-- WDIO: XPath is kept as-is (`toXPath`). -/
def toXPath (x : String) : String := x

/-- `normalizeOne` from mobile-actions.ts.  A plain string is trimmed; a
`{using, value}` pair is dispatched on the lower-cased trimmed `using`
strategy; unknown (web) strategies pass the value through unchanged.  The
TypeScript returns `string | null` but every branch returns a string, so we
return `String` directly (empty strings are dropped by the caller's
`filter(Boolean)`). -/
def normalizeOne : LocatorInput → String
  | .str s => trimString s
  | .usingValue u v =>
    let u' := lowerString (trimString u)
    if u' = "xpath" then toXPath v
    else if u' = "accessibility id" then toAccId v
    else if u' = "-android uiautomator" then toAndroidUIA v
    else if u' = "android uiautomator" then toAndroidUIA v
    else if u' = "-ios predicate string" then toIOSPredicate v
    else if u' = "ios predicate string" then toIOSPredicate v
    else if u' = "-ios class chain" then toIOSClassChain v
    else if u' = "ios class chain" then toIOSClassChain v
    else v

/-- One constructor/`withFallbacks` argument for a bucket:
`LocatorInput | LocatorInput[] | null | undefined`. -/
inductive FallbackInput where
  | absent
  | single (l : LocatorInput)
  | many (ls : List LocatorInput)
  deriving DecidableEq, Repr

/-- JS truthiness of a bucket argument: `null`/`undefined` are falsy, the
empty string is falsy, objects and arrays (even empty arrays) are truthy. -/
def truthyInput : FallbackInput → Bool
  | .absent => false
  | .single (.str s) => s ≠ ""
  | .single (.usingValue _ _) => true
  | .many _ => true

/-- The underlying list of inputs of a bucket argument
(`Array.isArray(val) ? val : [val]`). -/
def inputList : FallbackInput → List LocatorInput
  | .absent => []
  | .single l => [l]
  | .many ls => ls

/-- `normalizeList` from mobile-actions.ts: `null` for an absent argument,
otherwise the normalized entries with empty strings filtered out
(`filter(Boolean)`), and `null` when nothing survives. -/
def normalizeList (v : FallbackInput) : Option (List String) :=
  match v with
  | .absent => none
  | _ =>
    let mapped := ((inputList v).map normalizeOne).filter (fun s => s ≠ "")
    if mapped = [] then none else some mapped

/-- The state of a `PageElement`: the three selector buckets, each either
unset (`null`/`undefined` in TypeScript) or a list of canonical WDIO
selector strings. -/
structure Buckets where
  android : Option (List String)
  ios : Option (List String)
  universal : Option (List String)
  deriving DecidableEq, Repr

/-- The `PageElement` constructor: normalize each bucket argument. -/
def pageElement (a i u : FallbackInput) : Buckets :=
  ⟨normalizeList a, normalizeList i, normalizeList u⟩

/-- `PageElement.selectors()` for a given (possibly unknown) platform:
push the android bucket when the platform is android, the ios bucket when
it is ios, then always the universal bucket.  An unset bucket contributes
nothing (in TypeScript the guard `plat === 'x' && this.x` skips
`null`/`undefined`; an empty array spreads to nothing, which `getD []`
also captures). -/
def selectors (plat : Option Platform) (b : Buckets) : List String :=
  (if plat = some Platform.android then b.android.getD [] else []) ++
    (if plat = some Platform.ios then b.ios.getD [] else []) ++
    b.universal.getD []

/-- `PageElement.toSelector()`: first entry of `selectors()`, else the
hard fallback `android?.[0] ?? ios?.[0] ?? universal?.[0] ?? null`. -/
def toSelector (plat : Option Platform) (b : Buckets) : Option String :=
  match selectors plat b with
  | x :: _ => some x
  | [] =>
    ((b.android.getD []).head?).orElse fun _ =>
      ((b.ios.getD []).head?).orElse fun _ =>
        (b.universal.getD []).head?

/-- One bucket update inside `withFallbacks`:
`if (opts?.x) (this.x ||= []).push(...normalizeList(opts.x)!)`.
A falsy argument leaves the bucket alone.  A truthy argument whose
normalization is `null` makes the spread `...null` throw a `TypeError`
(modelled as `none`); otherwise the normalized entries are appended to the
existing bucket (an unset bucket is first replaced by `[]`). -/
def pushBucket (old : Option (List String)) (inp : FallbackInput) :
    Option (Option (List String)) :=
  if truthyInput inp = false then some old
  else
    match normalizeList inp with
    | none => none
    | some add => some (some (old.getD [] ++ add))

/-- `PageElement.withFallbacks(opts)`: apply `pushBucket` to the three
buckets in source order (android, ios, universal).  `none` models the
call throwing; the partial mutation before a throw is unobservable to a
caller because the exception propagates. -/
def withFallbacks (b : Buckets) (a i u : FallbackInput) : Option Buckets :=
  match pushBucket b.android a with
  | none => none
  | some a' =>
    match pushBucket b.ios i with
    | none => none
    | some i' =>
      match pushBucket b.universal u with
      | none => none
      | some u' => some ⟨a', i', u'⟩

/-- A whole sequence of `withFallbacks` calls, aborting at the first call
that throws. -/
def applyFallbackSeq (b : Buckets) :
    List (FallbackInput × FallbackInput × FallbackInput) → Option Buckets
  | [] => some b
  | (a, i, u) :: rest =>
    match withFallbacks b a i u with
    | none => none
    | some b' => applyFallbackSeq b' rest

/-! ### Text escaping (`quoteJava` / `quoteNS`) and the text factories -/

/-- Character-level body of `quoteJava`: escape backslashes and double
quotes.  The TypeScript runs two sequential global replaces
(`\ -> \\` then `" -> \"`); because the second pass only touches `"`
characters, this is the same as the one-pass per-character escape. -/
def quoteJavaChars : List Char → List Char
  | [] => []
  | c :: cs =>
    if c = '\\' then '\\' :: '\\' :: quoteJavaChars cs
    else if c = '"' then '\\' :: '"' :: quoteJavaChars cs
    else c :: quoteJavaChars cs

/-- `quoteJava` from mobile-actions.ts: escape, then wrap in double
quotes. -/
def quoteJava (s : String) : String :=
  String.mk ('"' :: (quoteJavaChars s.data ++ ['"']))

/-- Character-level body of `quoteNS`: escape double quotes only. -/
def quoteNSChars : List Char → List Char
  | [] => []
  | c :: cs =>
    if c = '"' then '\\' :: '"' :: quoteNSChars cs
    else c :: quoteNSChars cs

/-- `quoteNS` from mobile-actions.ts: escape double quotes, wrap in double
quotes (backslashes are NOT escaped). -/
def quoteNS (s : String) : String :=
  String.mk ('"' :: (quoteNSChars s.data ++ ['"']))

/-- Body of a double-quoted string literal: consume characters up to the
closing quote, treating `\c` as an escape for the literal character `c`
(the unescaping side of both dialects for the escapes these quoters
emit).  Succeeds only when the closing quote ends the input, i.e. when
the whole input is exactly one literal. -/
def parseQuotedBody : List Char → Option (List Char)
  | [] => none
  | c :: cs =>
    if c = '"' then if cs = [] then some [] else none
    else if c = '\\' then
      match cs with
      | [] => none
      | d :: ds => (parseQuotedBody ds).map fun t => d :: t
    else (parseQuotedBody cs).map fun t => c :: t

/-- Parse a complete double-quoted string literal back to its text. -/
def parseQuoted : List Char → Option (List Char)
  | '"' :: rest => parseQuotedBody rest
  | _ => none

/-- `PageElement.byTextExact`: Android `UiSelector().text(...)` plus iOS
NSPredicate equality over name/label/value, both built through the
constructor (hence normalized). -/
def byTextExact (text : String) : Buckets :=
  pageElement
    (.single (.str (toAndroidUIA ("new UiSelector().text(" ++ quoteJava text ++ ")"))))
    (.single (.str (toIOSPredicate
      ("name == " ++ quoteNS text ++ " OR label == " ++ quoteNS text ++
        " OR value == " ++ quoteNS text))))
    .absent

/-- `PageElement.byTextContains`: Android `UiSelector().textContains(...)`
plus iOS NSPredicate `CONTAINS` over name/label/value. -/
def byTextContains (text : String) : Buckets :=
  pageElement
    (.single (.str (toAndroidUIA
      ("new UiSelector().textContains(" ++ quoteJava text ++ ")"))))
    (.single (.str (toIOSPredicate
      ("name CONTAINS " ++ quoteNS text ++ " OR label CONTAINS " ++ quoteNS text ++
        " OR value CONTAINS " ++ quoteNS text))))
    .absent

/-! ## Device Lifecycle Manager (`DeviceLauncherService`)

The service is modelled as trace-producing state transformers.  External
command outcomes (adb, the emulator binary, `xcrun simctl`) are inputs
supplied by environment records; the traces record which external
commands the service issues, in order.  Timed polling loops are collapsed
to their observable outcome (the serial/“booted” status eventually seen,
or a timeout), since their iteration count is wall-clock driven.
-/

/-- The mutable fields of `DeviceLauncherService`
(`androidSerial`, `iosUdid`, `started`), plus a history ("ghost") flag
`confirmedHealthy` that is set exactly when the code observes a successful
health confirmation (`isAndroidHealthy` true, `waitForAndroidHealthy`
true, or `isBooted` true). -/
structure DeviceState where
  androidSerial : Option String
  iosUdid : Option String
  started : Bool
  confirmedHealthy : Bool
  deriving DecidableEq, Repr

/-- Fresh service instance: no serial, no UDID, not started. -/
def initState : DeviceState := ⟨none, none, false, false⟩

/-- Observable actions of the lifecycle manager.  `invokeStartOrHeal` is
the loop marker for one run of the start-or-heal sequence inside
`ensureAndroidReadyWithRetry`; the rest are external commands (with the
observed boolean outcome recorded where the code branches on it). -/
inductive Cmd where
  | invokeStartOrHeal
  | adbDevices
  | healthCheck (serial : String) (ok : Bool)
  | emuKill (serial : String)
  | adbKillServer
  | adbStartServer
  | emulatorBoot (cold : Bool)
  | waitForDevice (serial : String)
  | waitBootComplete (serial : String) (ok : Bool)
  | waitHealthy (serial : String) (ok : Bool)
  | keyeventUnlock (serial : String)
  | sleep (ms : Nat)
  | simctlBoot (udid : String)
  | simctlShutdown (udid : String)
  | isBootedQuery (udid : String) (ok : Bool)
  | openSimulatorApp
  deriving DecidableEq, Repr

/-- Result of one lifecycle operation: the commands issued, the service
state afterwards, and normal return vs a thrown error message. -/
structure StepResult where
  trace : List Cmd
  state : DeviceState
  result : Except String Unit
  deriving Repr

/-- Outcomes of the external Android commands for one run of the
start-or-heal sequence.  `optAvdName`/`envAvdName` model
`opts.android?.avdName` and `process.env.ANDROID_EMULATOR_NAME`;
`adbStdout` the `adb devices` output; `healthy s` the outcome of the
composite `isAndroidHealthy(s)` probe; `coldRestartFlag` the
`envFlag('ANDROID_COLD_RESTART_ON_FAIL')` value (the flag helper lives
outside `src/`, so only its `boolean | undefined` result is modelled);
`bootSerial` the serial that eventually shows up while polling
`adb devices` after spawning the emulator (or `none` on timeout);
`bootCompleteOk` whether `waitForBootComplete` sees the boot-completed
signals in time; `waitHealthyOk` the outcome of the final
`waitForAndroidHealthy`; `emuKillOk` whether `adb emu kill` succeeds. -/
structure AndroidEnv where
  optAvdName : Option String
  envAvdName : Option String
  adbStdout : String
  healthy : String → Bool
  coldRestartFlag : Option Bool
  coldBootCfg : Bool
  emuKillOk : Bool
  bootSerial : Option String
  bootCompleteOk : Bool
  waitHealthyOk : Bool

/-- Effective AVD name: `opts.android?.avdName || process.env.ANDROID_EMULATOR_NAME`,
with the combined value then tested for truthiness (`if (!avdName)`). -/
def effAvdName (env : AndroidEnv) : Option String :=
  (strTruthy env.optAvdName).orElse fun _ => strTruthy env.envAvdName

/-- `adbDevices()`: drop the header line of `adb devices`, take the first
tab-separated column of each remaining line, drop empties. -/
def parseAdbDevices (stdout : String) : List String :=
  (((splitString "\n" stdout).drop 1).map fun l =>
      (splitString "\t" (trimString l)).headD "").filter fun s => s ≠ ""

/-- `stopAndroid()`: no tracked serial is a logged no-op; otherwise
`adb -s <serial> emu kill`, falling back to `adb kill-server` (errors of
the fallback swallowed).  Never throws and never changes the tracked
state. -/
def stopAndroid (env : AndroidEnv) (st : DeviceState) : List Cmd × DeviceState :=
  match st.androidSerial with
  | none => ([], st)
  | some serial =>
    if env.emuKillOk then ([Cmd.emuKill serial], st)
    else ([Cmd.emuKill serial, Cmd.adbKillServer], st)

/-- `startAndroid(forceColdBoot)`: warm up adb, spawn the emulator
(detached), poll `adb devices` for the new serial, `wait-for-device`,
wait for boot completion, run the final health check with retries, send
the best-effort unlock keyevent, and only then set `started`.  The
polling loops are collapsed to their outcomes from `env`. -/
def startAndroid (env : AndroidEnv) (forceColdBoot : Bool) (st : DeviceState) :
    StepResult :=
  let cold := forceColdBoot || env.coldBootCfg
  let tr0 := [Cmd.adbStartServer, Cmd.emulatorBoot cold]
  match env.bootSerial with
  | none =>
    ⟨tr0, st, .error "[android] emulator did not appear in adb devices within timeout"⟩
  | some serial =>
    let st1 := { st with androidSerial := some serial }
    let tr1 := tr0 ++ [Cmd.waitForDevice serial]
    if env.bootCompleteOk then
      if env.waitHealthyOk then
        ⟨tr1 ++ [Cmd.waitBootComplete serial true, Cmd.waitHealthy serial true,
            Cmd.keyeventUnlock serial],
          { st1 with started := true, confirmedHealthy := true }, .ok ()⟩
      else
        ⟨tr1 ++ [Cmd.waitBootComplete serial true, Cmd.waitHealthy serial false],
          st1, .error "[android] emulator failed healthcheck after boot"⟩
    else
      ⟨tr1 ++ [Cmd.waitBootComplete serial false], st1,
        .error "[android] emulator boot timeout (sys.boot_completed != 1)"⟩

/-- `startOrHealAndroid()`: skip when no AVD name is configured; otherwise
list devices; when an `emulator-` serial is already running, record it,
health-check it and return when healthy, else stop it and cold-restart
(gated by `ANDROID_COLD_RESTART_ON_FAIL`, default `true`); when nothing
is running, boot fresh (no forced cold boot). -/
def startOrHealAndroid (env : AndroidEnv) (st : DeviceState) : StepResult :=
  match effAvdName env with
  | none => ⟨[], st, .ok ()⟩
  | some _ =>
    let devices := parseAdbDevices env.adbStdout
    match devices.find? (fun d => strStartsWith d "emulator-") with
    | some running =>
      let st1 := { st with androidSerial := some running }
      if env.healthy running then
        ⟨[Cmd.adbDevices, Cmd.healthCheck running true],
          { st1 with started := true, confirmedHealthy := true }, .ok ()⟩
      else
        let stop := stopAndroid env st1
        let coldRestart := env.coldRestartFlag.getD true
        let r := startAndroid env coldRestart stop.2
        ⟨[Cmd.adbDevices, Cmd.healthCheck running false] ++ stop.1 ++ r.trace,
          r.state, r.result⟩
    | none =>
      let r := startAndroid env false st
      ⟨Cmd.adbDevices :: r.trace, r.state, r.result⟩

/-- The retry loop body of `ensureAndroidReadyWithRetry`, by recursion on
the remaining retries (`remaining = retries - attempt`).  Each iteration
runs the start-or-heal sequence once (marked `invokeStartOrHeal`); on
failure it runs `adb start-server` (`tryAdbRestart`), then sleeps
`1500 * (attempt + 1)` ms and retries while attempts remain, else
rethrows the last error. -/
def ensureLoop (env : Nat → AndroidEnv) : Nat → Nat → DeviceState → StepResult
  | 0, attempt, st =>
    let r := startOrHealAndroid (env attempt) st
    match r.result with
    | .ok _ => ⟨Cmd.invokeStartOrHeal :: r.trace, r.state, .ok ()⟩
    | .error e =>
      ⟨Cmd.invokeStartOrHeal :: r.trace ++ [Cmd.adbStartServer], r.state, .error e⟩
  | remaining + 1, attempt, st =>
    let r := startOrHealAndroid (env attempt) st
    match r.result with
    | .ok _ => ⟨Cmd.invokeStartOrHeal :: r.trace, r.state, .ok ()⟩
    | .error _ =>
      let rest := ensureLoop env remaining (attempt + 1) r.state
      ⟨Cmd.invokeStartOrHeal :: r.trace ++
          [Cmd.adbStartServer, Cmd.sleep (1500 * (attempt + 1))] ++ rest.trace,
        rest.state, rest.result⟩

/-- `ensureAndroidReadyWithRetry`: run the loop with `retries`
(`ANDROID_EMULATOR_RETRIES`, default 2) remaining retries, starting at
attempt 0.  `env i` supplies the external outcomes seen by attempt `i`. -/
def ensureAndroidReadyWithRetry (env : Nat → AndroidEnv) (retries : Nat)
    (st : DeviceState) : StepResult :=
  ensureLoop env retries 0 st

/-- Outcomes of the external iOS commands.  `foundUdid n` models
`findUdidByName(n)`; `isBootedBefore` the initial `isBooted(targetUdid)`
probe; `bootedAfterWait` the final `isBooted` probe after the poll loop. -/
structure IOSEnv where
  isDarwin : Bool
  optUdid : Option String
  envUdid : Option String
  optDeviceName : Option String
  envDeviceName : Option String
  foundUdid : String → Option String
  headless : Bool
  isBootedBefore : Bool
  bootedAfterWait : Bool

/-- Effective device name:
`opts.ios?.deviceName || process.env.IOS_DEVICE_NAME || 'iPhone 15'`. -/
def effIOSDeviceName (env : IOSEnv) : String :=
  (((strTruthy env.optDeviceName).orElse fun _ => strTruthy env.envDeviceName).getD
    "iPhone 15")

/-- Effective target UDID: explicit `opts.ios?.udid || IOS_UDID`, else
`findUdidByName(deviceName)`, with a final truthiness guard
(`if (!targetUdid) ... return`). -/
def effTargetUdid (env : IOSEnv) : Option String :=
  (((strTruthy env.optUdid).orElse fun _ => strTruthy env.envUdid).orElse fun _ =>
    env.foundUdid (effIOSDeviceName env)).bind fun u => strTruthy (some u)

/-- `startIOS()`: skip off macOS; resolve the target UDID (skip when
unresolvable); when the simulator is already booted, record the UDID and
return (NOTE: the source does not set `started` on this path); otherwise
`simctl boot`, optionally foreground the Simulator app, poll until
booted, and on success record the UDID and set `started`. -/
def startIOS (env : IOSEnv) (st : DeviceState) : StepResult :=
  if env.isDarwin = false then ⟨[], st, .ok ()⟩
  else
    match effTargetUdid env with
    | none => ⟨[], st, .ok ()⟩
    | some t =>
      if env.isBootedBefore then
        ⟨[Cmd.isBootedQuery t true],
          { st with iosUdid := some t, confirmedHealthy := true }, .ok ()⟩
      else
        let tr :=
          [Cmd.isBootedQuery t false, Cmd.simctlBoot t] ++
            (if env.headless then [] else [Cmd.openSimulatorApp])
        if env.bootedAfterWait then
          ⟨tr ++ [Cmd.isBootedQuery t true],
            { st with iosUdid := some t, started := true, confirmedHealthy := true },
            .ok ()⟩
        else
          ⟨tr ++ [Cmd.isBootedQuery t false], st, .error "[ios] simulator boot timeout"⟩

/-- `stopIOS()`: best-effort `simctl shutdown` of the tracked UDID; a
missing UDID is a logged no-op.  Never changes the tracked state. -/
def stopIOS (st : DeviceState) : List Cmd × DeviceState :=
  match st.iosUdid with
  | none => ([], st)
  | some u => ([Cmd.simctlShutdown u], st)

/-- Per-run configuration and external outcomes for the three WDIO hooks:
platform selection, Android attempt environments and retry count,
the iOS environment, and the `killOnComplete` options. -/
structure ServiceEnv where
  platform : Platform
  androidEnv : Nat → AndroidEnv
  androidRetries : Nat
  iosEnv : IOSEnv
  killOnCompleteAndroid : Option Bool
  killOnCompleteIOS : Option Bool
  stopEnv : AndroidEnv

/-- `onPrepare()`: Android goes through the retry wrapper, iOS starts the
simulator. -/
def onPrepare (env : ServiceEnv) (st : DeviceState) : StepResult :=
  match env.platform with
  | .android => ensureAndroidReadyWithRetry env.androidEnv env.androidRetries st
  | .ios => startIOS env.iosEnv st

/-- `beforeSession()`: Android re-runs the retry wrapper; iOS does
nothing. -/
def beforeSession (env : ServiceEnv) (st : DeviceState) : StepResult :=
  match env.platform with
  | .android => ensureAndroidReadyWithRetry env.androidEnv env.androidRetries st
  | .ios => ⟨[], st, .ok ()⟩

/-- `onComplete()`: a no-op unless `started`; otherwise optionally stop
the device (`killOnComplete` defaults: android `true`, ios `false`). -/
def onComplete (env : ServiceEnv) (st : DeviceState) : StepResult :=
  if st.started = false then ⟨[], st, .ok ()⟩
  else
    match env.platform with
    | .android =>
      if env.killOnCompleteAndroid.getD true then
        let s := stopAndroid env.stopEnv st
        ⟨s.1, s.2, .ok ()⟩
      else ⟨[], st, .ok ()⟩
    | .ios =>
      if env.killOnCompleteIOS.getD false then
        let s := stopIOS st
        ⟨s.1, s.2, .ok ()⟩
      else ⟨[], st, .ok ()⟩

/-- States reachable from a fresh service instance by any sequence of the
three WDIO hooks, each under an arbitrary environment (command outcomes
may differ between invocations).  The post-state of a hook is reachable
whether the hook returned normally or threw. -/
inductive Reachable : DeviceState → Prop where
  | init : Reachable initState
  | prepare (env : ServiceEnv) (st : DeviceState) :
      Reachable st → Reachable (onPrepare env st).state
  | before (env : ServiceEnv) (st : DeviceState) :
      Reachable st → Reachable (beforeSession env st).state
  | complete (env : ServiceEnv) (st : DeviceState) :
      Reachable st → Reachable (onComplete env st).state

/-! ## Diagnostics Bundle Collector (`collectFailureBundle`, diagnostics.ts)

Each sub-probe's outcome (driver call or shell command) is an input in
`DiagEnv` (`Except` = the call threw).  The collector itself is a pure
function assembling the bundle; each record field below is computed by
exactly the guarded step that sets it in the TypeScript, and `notes`
concatenates the notes pushed by the steps in source order (page source
first, then the platform-specific permission steps). -/

/-- `getWindowRect()` result. -/
structure Rect where
  x : Int
  y : Int
  width : Int
  height : Int
  deriving DecidableEq, Repr

/-- One iOS TCC table row (`service|allowed|prompt_count`); `Number(...)`
on a missing or non-numeric column yields `NaN`, modelled as `none`. -/
structure TccRow where
  service : String
  allowed : Option Int
  promptCount : Option Int
  deriving DecidableEq, Repr

/-- The `permissions` field of a bundle. -/
structure Permissions where
  granted : Option (List String)
  denied : Option (List String)
  raw : Option String
  iosTcc : Option (List TccRow)
  deriving DecidableEq, Repr

/-- The `app` field of a bundle. -/
structure AppInfo where
  packageId : Option String
  bundleId : Option String
  activity : Option String
  deriving DecidableEq, Repr

/-- `FailureBundle` from diagnostics.ts (optional fields are `none` when
their collection step failed or was skipped). -/
structure FailureBundle where
  timestamp : String
  platform : Platform
  sessionId : Option String
  context : Option String
  contexts : Option (List String)
  windowRect : Option Rect
  pageSource : Option String
  app : Option AppInfo
  permissions : Option Permissions
  notes : List String
  deriving Repr

/-- `FailureBundleOpts`. -/
structure DiagOpts where
  includePageSource : Option Bool
  maxSourceLength : Option Nat
  packageId : Option String
  bundleId : Option String

/-- Outcomes of the external probes used by `collectFailureBundle`: the
driver queries, the `dumpsys package` shell, the environment variables,
and the sqlite TCC query.  An `Except.error` value models the call
throwing with that message. -/
structure DiagEnv where
  isAndroid : Bool
  timestamp : String
  sessionId : Option String
  getContext : Except String String
  getContexts : Except String (List String)
  getWindowRect : Except String Rect
  getPageSource : Except String String
  getCurrentPackage : Except String (Option String)
  getCurrentActivity : Except String (Option String)
  envAndroidAppPackage : Option String
  dumpsys : Except String String
  includeRawDump : Bool
  envIosUdid : Option String
  envIosBundleId : Option String
  tccQuery : Except String String

/-- The `grantedPermissions:\s*\[([^\]]*)\]` capture: text after the first
`grantedPermissions:` marker, skipping whitespace, requiring `[`, taking
everything up to a (required) closing `]`. -/
def grantedBlock (raw : String) : Option String :=
  match splitString "grantedPermissions:" raw with
  | _ :: rest :: _ =>
    match rest.data.dropWhile Char.isWhitespace with
    | '[' :: cs =>
      if (cs.dropWhile fun c => c ≠ ']') = [] then none
      else some (String.mk (cs.takeWhile fun c => c ≠ ']'))
    | _ => none
  | _ => none

/-- A `\w`/`_` word character. -/
def wordChar (c : Char) : Bool := c.isAlphanum || c = '_'

/-- The per-line fallback pattern
`(android\.permission\.[\w_]+)\s*:\s*granted\s*=\s*(true|false)` (with the
regex's case-insensitive flag applied to the fixed words): returns the
permission name and the granted flag when the line matches. -/
def parsePermLine (line : String) : Option (String × Bool) :=
  match splitString "android.permission." line with
  | _ :: rest :: _ =>
    let cs := rest.data
    let name := cs.takeWhile wordChar
    if name = [] then none
    else
      match (cs.drop name.length).dropWhile Char.isWhitespace with
      | ':' :: cs2 =>
        let cs3 := cs2.dropWhile Char.isWhitespace
        if lowerString (String.mk (cs3.take 7)) = "granted" then
          match (cs3.drop 7).dropWhile Char.isWhitespace with
          | '=' :: cs5 =>
            let cs6 := cs5.dropWhile Char.isWhitespace
            if lowerString (String.mk (cs6.take 4)) = "true" then
              some ("android.permission." ++ String.mk name, true)
            else if lowerString (String.mk (cs6.take 5)) = "false" then
              some ("android.permission." ++ String.mk name, false)
            else none
          | _ => none
        else none
      | _ => none
  | _ => none

/-- `Array.from(new Set(l))`: deduplicate, keeping first occurrences. -/
def dedupFirst (l : List String) : List String :=
  l.foldl (fun acc s => if s ∈ acc then acc else acc ++ [s]) []

/-- Insert into a lexicographically sorted list (model of JS `sort()`). -/
def insertSorted (s : String) : List String → List String
  | [] => [s]
  | t :: ts => if t < s then t :: insertSorted s ts else s :: t :: ts

/-- Sort ascending (model of JS default `sort()` on these ASCII names). -/
def sortStrings (l : List String) : List String :=
  l.foldr insertSorted []

/-- The granted/denied lists parsed from a `dumpsys package` dump: first
the bracketed `grantedPermissions` block (split on commas, trimmed,
empties dropped — all granted); otherwise the per-line
`name: granted=bool` fallback. -/
def parseDumpsysPermissions (raw : String) : List String × List String :=
  match grantedBlock raw with
  | some inner =>
    ((((splitString "," inner).map trimString).filter fun s => s ≠ ""), [])
  | none =>
    (splitString "\n" raw).foldl
      (fun acc line =>
        match parsePermLine line with
        | some (name, true) => (acc.1 ++ [name], acc.2)
        | some (name, false) => (acc.1, acc.2 ++ [name])
        | none => acc)
      ([], [])

/-- One TCC output line `service|allowed|prompt_count`. -/
def parseTccRow (line : String) : TccRow :=
  let parts := splitString "|" line
  { service := parts.headD ""
    allowed := (parts.get? 1).bind parseIntString
    promptCount := (parts.get? 2).bind parseIntString }

/-- The TCC query output: trim, split on newlines, drop empties, parse
each row. -/
def parseTccRows (stdout : String) : List TccRow :=
  ((splitString "\n" (trimString stdout)).filter fun l => l ≠ "").map parseTccRow

/-- The guarded page-source step: the (possibly truncated) `pageSource`
field and the notes it pushes.  Skipped when `includePageSource` is
`false`; a thrown `getPageSource()` becomes a note; a source longer than
`maxLen` keeps exactly the first `maxLen` characters plus the truncation
marker naming the number of characters cut. -/
def pageSourcePart (env : DiagEnv) (opts : DiagOpts) : Option String × List String :=
  if (opts.includePageSource.getD true) = false then (none, [])
  else
    match env.getPageSource with
    | .error e => (none, ["getPageSource() failed: " ++ e])
    | .ok src =>
      let maxLen := opts.maxSourceLength.getD 250000
      if src.length > maxLen then
        (some (String.mk (src.data.take maxLen) ++
            ("\n/* truncated " ++ toString (src.length - maxLen) ++ " chars */")),
          [])
      else (some src, [])

/-- The Android package resolution chain:
`opts.packageId`, else `getCurrentPackage()` (throw ignored), else
`process.env.ANDROID_APP_PACKAGE`, each step skipped when the previous
produced a truthy value. -/
def androidPkg (env : DiagEnv) (opts : DiagOpts) : Option String :=
  ((strTruthy opts.packageId).orElse fun _ =>
    (match env.getCurrentPackage with
      | .ok p => strTruthy p
      | .error _ => none)).orElse fun _ =>
    strTruthy env.envAndroidAppPackage

/-- The Android app/permissions steps: the `app` and `permissions` fields
plus the notes they push.  A resolved package triggers the guarded
`dumpsys` read and parse; a missing package or a thrown `dumpsys` each
push a note and leave `permissions` absent. -/
def androidPermPart (env : DiagEnv) (opts : DiagOpts) :
    Option AppInfo × Option Permissions × List String :=
  let pkg := androidPkg env opts
  let activity :=
    match env.getCurrentActivity with
    | .ok a => a
    | .error _ => none
  let app := some { packageId := pkg, bundleId := none, activity := activity }
  match pkg with
  | some _ =>
    match env.dumpsys with
    | .ok raw =>
      let parsed := parseDumpsysPermissions raw
      (app,
        some { granted := some (sortStrings (dedupFirst parsed.1))
               denied := some (sortStrings (dedupFirst parsed.2))
               raw := if env.includeRawDump then some (String.mk (raw.data.take 250000))
                      else none
               iosTcc := none },
        [])
    | .error e => (app, none, ["android dumpsys parse failed: " ++ e])
  | none =>
    (app, none,
      ["packageId not resolved for Android (set ANDROID_APP_PACKAGE or pass opts.packageId)"])

/-- The iOS app/permissions steps: requires both `IOS_UDID` and a bundle
id (`opts.bundleId || IOS_BUNDLE_ID`); otherwise, or when the sqlite TCC
read throws, a note is pushed and `permissions` stays absent. -/
def iosPermPart (env : DiagEnv) (opts : DiagOpts) :
    Option AppInfo × Option Permissions × List String :=
  let udid := strTruthy env.envIosUdid
  let bid := (strTruthy opts.bundleId).orElse fun _ => strTruthy env.envIosBundleId
  let app := some { packageId := none, bundleId := bid, activity := none }
  if udid.isSome && bid.isSome then
    match env.tccQuery with
    | .ok stdout =>
      (app,
        some { granted := none, denied := none, raw := none
               iosTcc := some (parseTccRows stdout) },
        [])
    | .error e => (app, none, ["iOS Simulator TCC read failed: " ++ e])
  else
    (app, none,
      ["iOS permissions collection requires IOS_UDID and bundleId (IOS_BUNDLE_ID or opts.bundleId)"])

/-- `collectFailureBundle(opts)`: assemble the bundle.  The context,
contexts and window-rect probes are guarded with empty catch blocks
(field absent on throw, no note); the page-source and permission steps
push the notes computed above.  The function never throws: every probe
outcome yields a bundle. -/
def collectFailureBundle (env : DiagEnv) (opts : DiagOpts) : FailureBundle :=
  let src := pageSourcePart env opts
  let plat :=
    match env.isAndroid with
    | true => androidPermPart env opts
    | false => iosPermPart env opts
  { timestamp := env.timestamp
    platform := if env.isAndroid then Platform.android else Platform.ios
    sessionId := env.sessionId
    context :=
      match env.getContext with
      | .ok c => some c
      | .error _ => none
    contexts :=
      match env.getContexts with
      | .ok cs => some cs
      | .error _ => none
    windowRect :=
      match env.getWindowRect with
      | .ok r => some r
      | .error _ => none
    pageSource := src.1
    app := plat.1
    permissions := plat.2.1
    notes := src.2 ++ plat.2.2 }

/-! ## Theorems -/

/-! ### C3: resolution with unknown platform -/

/-- C3 (counterexample): the claim says that with the platform unknown an
element carrying both an android bucket and a universal bucket resolves
to the first android entry.  In the code, `toSelector` first consults
`selectors()`, which for an unknown platform already returns the
universal bucket, so the element `{android: ["a-sel"], universal:
["u-sel"]}` resolves to `"u-sel"`, not `"a-sel"`. -/
theorem toSelector_unknown_android_universal_counterexample :
    toSelector none ⟨some ["a-sel"], none, some ["u-sel"]⟩ = some "u-sel" ∧
      toSelector none ⟨some ["a-sel"], none, some ["u-sel"]⟩ ≠ some "a-sel" := by
  constructor
  · rfl
  · decide

/-- C3 (amended): with the platform unknown, `toSelector` returns the
first universal entry when the universal bucket is non-empty (because
`selectors()` already yields the universal bucket), and only otherwise
falls back to the first android entry, else the first ios entry, else
`null`. -/
theorem toSelector_unknown_platform (b : Buckets) :
    toSelector none b =
      ((b.universal.getD []).head?).orElse fun _ =>
        ((b.android.getD []).head?).orElse fun _ => (b.ios.getD []).head? := by
  have hsel : selectors none b = b.universal.getD [] := by
    simp [selectors]
  unfold toSelector
  rw [hsel]
  cases hu : b.universal.getD [] with
  | nil =>
    cases ha : (b.android.getD []).head? with
    | none =>
      cases hi : (b.ios.getD []).head? with
      | none => simp [Option.orElse, hu, ha, hi]
      | some y => simp [Option.orElse, hu, ha, hi]
    | some x => simp [Option.orElse, ha]
  | cons x xs => simp [Option.orElse]

/-! ### C4: known-platform ordering and fallback appending -/

/-- `pushBucket` only ever appends to the entries of a bucket. -/
theorem pushBucket_extends (old : Option (List String)) (inp : FallbackInput)
    (new : Option (List String)) (h : pushBucket old inp = some new) :
    ∃ t, new.getD [] = old.getD [] ++ t := by
  unfold pushBucket at h
  split at h
  · obtain rfl : old = new := Option.some_inj.mp h
    exact ⟨[], by simp⟩
  · split at h
    · exact absurd h (by simp)
    · rename_i add hnorm
      obtain rfl : _ = new := Option.some_inj.mp h
      exact ⟨add, by simp⟩

/-- `withFallbacks` only ever appends to each bucket. -/
theorem withFallbacks_extends (b : Buckets) (a i u : FallbackInput) (b' : Buckets)
    (h : withFallbacks b a i u = some b') :
    (∃ t, b'.android.getD [] = b.android.getD [] ++ t) ∧
      (∃ t, b'.ios.getD [] = b.ios.getD [] ++ t) ∧
      (∃ t, b'.universal.getD [] = b.universal.getD [] ++ t) := by
  unfold withFallbacks at h
  cases ha : pushBucket b.android a with
  | none => rw [ha] at h; exact absurd h (by simp)
  | some a' =>
    rw [ha] at h
    cases hi : pushBucket b.ios i with
    | none => rw [hi] at h; exact absurd h (by simp)
    | some i' =>
      rw [hi] at h
      cases hu : pushBucket b.universal u with
      | none => rw [hu] at h; exact absurd h (by simp)
      | some u' =>
        rw [hu] at h
        have hb : (⟨a', i', u'⟩ : Buckets) = b' := Option.some_inj.mp h
        subst hb
        exact ⟨pushBucket_extends _ _ _ ha, pushBucket_extends _ _ _ hi,
          pushBucket_extends _ _ _ hu⟩

/-- Any successful sequence of `withFallbacks` calls only ever appends. -/
theorem applyFallbackSeq_extends :
    ∀ (ops : List (FallbackInput × FallbackInput × FallbackInput)) (b b' : Buckets),
      applyFallbackSeq b ops = some b' →
      (∃ t, b'.android.getD [] = b.android.getD [] ++ t) ∧
        (∃ t, b'.ios.getD [] = b.ios.getD [] ++ t) ∧
        (∃ t, b'.universal.getD [] = b.universal.getD [] ++ t) := by
  intro ops
  induction ops with
  | nil =>
    intro b b' h
    have : b = b' := by simpa [applyFallbackSeq] using h
    subst this
    exact ⟨⟨[], by simp⟩, ⟨[], by simp⟩, ⟨[], by simp⟩⟩
  | cons op rest ih =>
    intro b b' h
    obtain ⟨a, i, u⟩ := op
    unfold applyFallbackSeq at h
    cases hw : withFallbacks b a i u with
    | none => rw [hw] at h; exact absurd h (by simp)
    | some b1 =>
      rw [hw] at h
      obtain ⟨⟨t1, h1⟩, ⟨t2, h2⟩, ⟨t3, h3⟩⟩ := withFallbacks_extends b a i u b1 hw
      obtain ⟨⟨s1, g1⟩, ⟨s2, g2⟩, ⟨s3, g3⟩⟩ := ih b1 b' h
      exact ⟨⟨t1 ++ s1, by rw [g1, h1, List.append_assoc]⟩,
        ⟨t2 ++ s2, by rw [g2, h2, List.append_assoc]⟩,
        ⟨t3 ++ s3, by rw [g3, h3, List.append_assoc]⟩⟩

/-- C4: for a known platform, `selectors` is exactly the platform bucket
followed by the universal bucket (platform entries strictly before
universal entries, insertion order preserved within each bucket), and
`withFallbacks` — hence any sequence of `withFallbacks` calls — only
appends to each bucket, so the property is stable under fallback
registration. -/
theorem selectors_platform_then_universal (b : Buckets) :
    (selectors (some Platform.android) b = b.android.getD [] ++ b.universal.getD []) ∧
      (selectors (some Platform.ios) b = b.ios.getD [] ++ b.universal.getD []) ∧
      (∀ a i u b', withFallbacks b a i u = some b' →
        (∃ t, b'.android.getD [] = b.android.getD [] ++ t) ∧
          (∃ t, b'.ios.getD [] = b.ios.getD [] ++ t) ∧
          (∃ t, b'.universal.getD [] = b.universal.getD [] ++ t)) ∧
      (∀ ops b', applyFallbackSeq b ops = some b' →
        (∃ t, b'.android.getD [] = b.android.getD [] ++ t) ∧
          (∃ t, b'.ios.getD [] = b.ios.getD [] ++ t) ∧
          (∃ t, b'.universal.getD [] = b.universal.getD [] ++ t)) := by
  refine ⟨by simp [selectors], by simp [selectors], ?_, ?_⟩
  · exact fun a i u b' h => withFallbacks_extends b a i u b' h
  · exact fun ops b' h => applyFallbackSeq_extends ops b b' h

/-- C4 (witness): a concrete element with android and universal entries,
extended by one `withFallbacks` call. -/
theorem selectors_platform_then_universal_witness :
    (selectors (some Platform.android) ⟨some ["a1"], none, some ["u1"]⟩ =
        ["a1"] ++ ["u1"]) ∧
      (∃ t, (pageElement (.single (.str "a2")) .absent .absent).android.getD [] =
          [] ++ t) ∧
      (∃ t,
        (Buckets.mk (some ["a1", "a2"]) none (some ["u1"])).android.getD [] =
          (Buckets.mk (some ["a1"]) none (some ["u1"])).android.getD [] ++ t) := by
  refine ⟨(selectors_platform_then_universal ⟨some ["a1"], none, some ["u1"]⟩).1, ⟨["a2"], by decide⟩, ?_⟩
  exact ((selectors_platform_then_universal ⟨some ["a1"], none, some ["u1"]⟩).2.2.1
    (.single (.str "a2")) .absent .absent ⟨some ["a1", "a2"], none, some ["u1"]⟩
    (by decide)).1

/-! ### C8: page-source truncation -/

/-- C8: when the UI-tree dump succeeds and page-source collection is
enabled, a source longer than the cap (`maxSourceLength`, default
250 000) is stored as exactly the first `maxLen` characters followed by
the truncation marker naming the number of omitted characters, and a
source at or below the cap is stored unchanged.  (In particular a
300 000-character source against a 250 000 cap keeps 250 000 characters
and the marker names 50 000.) -/
theorem collectFailureBundle_truncates (env : DiagEnv) (opts : DiagOpts) (src : String)
    (hsrc : env.getPageSource = .ok src)
    (hinc : opts.includePageSource.getD true = true) :
    (src.length > opts.maxSourceLength.getD 250000 →
      (collectFailureBundle env opts).pageSource =
        some (String.mk (src.data.take (opts.maxSourceLength.getD 250000)) ++
          ("\n/* truncated " ++
            toString (src.length - opts.maxSourceLength.getD 250000) ++ " chars */")) ∧
      (String.mk (src.data.take (opts.maxSourceLength.getD 250000))).length =
        opts.maxSourceLength.getD 250000) ∧
    (src.length ≤ opts.maxSourceLength.getD 250000 →
      (collectFailureBundle env opts).pageSource = some src) := by
  have hps : (collectFailureBundle env opts).pageSource = (pageSourcePart env opts).1 := by
    simp [collectFailureBundle]
  constructor
  · intro hlong
    constructor
    · rw [hps]
      simp only [pageSourcePart, hinc, hsrc]
      simp [hlong]
    · show (src.data.take (opts.maxSourceLength.getD 250000)).length = _
      rw [List.length_take]
      have : src.length = src.data.length := rfl
      omega
  · intro hshort
    rw [hps]
    simp only [pageSourcePart, hinc, hsrc]
    have : ¬ src.length > opts.maxSourceLength.getD 250000 := by omega
    simp [this]

/-- A concrete probe environment for the truncation witness: an iOS
session whose page source is `"abcde"`. -/
def diagEnvSmallSrc : DiagEnv :=
  { isAndroid := false
    timestamp := "2024-01-01T00:00:00Z"
    sessionId := some "sess-1"
    getContext := .ok "NATIVE_APP"
    getContexts := .ok ["NATIVE_APP"]
    getWindowRect := .ok ⟨0, 0, 390, 844⟩
    getPageSource := .ok "abcde"
    getCurrentPackage := .ok none
    getCurrentActivity := .ok none
    envAndroidAppPackage := none
    dumpsys := .ok ""
    includeRawDump := false
    envIosUdid := some "UDID-X"
    envIosBundleId := some "com.example.app"
    tccQuery := .ok "" }

/-- C8 (witness): a 5-character source against a 3-character cap keeps
exactly `"abc"` and the marker names the 2 omitted characters. -/
theorem collectFailureBundle_truncates_witness :
    (collectFailureBundle diagEnvSmallSrc ⟨none, some 3, none, none⟩).pageSource =
      some "abc\n/* truncated 2 chars */" := by
  have h := (collectFailureBundle_truncates diagEnvSmallSrc ⟨none, some 3, none, none⟩
    "abcde" rfl rfl).1 (by decide)
  rw [h.1]
  rfl

/-! ### C10: missing AVD configuration -/

/-- C10: when neither the `avdName` option nor `ANDROID_EMULATOR_NAME` is
set, the Android ensure-ready entry point returns successfully after a
single start-or-heal run that issues no command at all (no listing, no
health check, no boot), leaving the state — in particular the `started`
flag — untouched. -/
theorem ensureAndroidReady_skips_without_avd (env : Nat → AndroidEnv) (retries : Nat)
    (st : DeviceState)
    (h1 : (env 0).optAvdName = none) (h2 : (env 0).envAvdName = none) :
    ensureAndroidReadyWithRetry env retries st =
      ⟨[Cmd.invokeStartOrHeal], st, .ok ()⟩ ∧
    (ensureAndroidReadyWithRetry env retries st).state.started = st.started := by
  have hso : startOrHealAndroid (env 0) st = ⟨[], st, .ok ()⟩ := by
    unfold startOrHealAndroid effAvdName
    rw [h1, h2]
    rfl
  have hmain : ensureAndroidReadyWithRetry env retries st =
      ⟨[Cmd.invokeStartOrHeal], st, .ok ()⟩ := by
    unfold ensureAndroidReadyWithRetry
    cases retries with
    | zero => simp [ensureLoop, hso]
    | succ n => simp [ensureLoop, hso]
  exact ⟨hmain, by rw [hmain]⟩

/-- A concrete Android environment with no AVD name configured. -/
def androidEnvNoAvd : AndroidEnv :=
  { optAvdName := none
    envAvdName := none
    adbStdout := "List of devices attached\nemulator-5554\tdevice\n"
    healthy := fun _ => true
    coldRestartFlag := none
    coldBootCfg := false
    emuKillOk := true
    bootSerial := none
    bootCompleteOk := true
    waitHealthyOk := true }

/-- C10 (witness): with the default retry count 2 and a fresh state, the
ensure-ready call is a silent no-op. -/
theorem ensureAndroidReady_skips_without_avd_witness :
    ensureAndroidReadyWithRetry (fun _ => androidEnvNoAvd) 2 initState =
      ⟨[Cmd.invokeStartOrHeal], initState, .ok ()⟩ ∧
    (ensureAndroidReadyWithRetry (fun _ => androidEnvNoAvd) 2 initState).state.started =
      initState.started :=
  ensureAndroidReady_skips_without_avd (fun _ => androidEnvNoAvd) 2 initState rfl rfl

/-! ### C2: already-healthy Android device -/

/-- C2: when an `emulator-` serial is already listed and the health check
passes, ensure-ready performs exactly one device listing and one health
check — no boot command at all — records the serial, sets `started`, and
returns successfully. -/
theorem ensureAndroidReady_healthy_no_boot (env : Nat → AndroidEnv) (retries : Nat)
    (st : DeviceState) (a r : String)
    (havd : effAvdName (env 0) = some a)
    (hfind : (parseAdbDevices (env 0).adbStdout).find?
      (fun d => strStartsWith d "emulator-") = some r)
    (hok : (env 0).healthy r = true) :
    startOrHealAndroid (env 0) st =
      ⟨[Cmd.adbDevices, Cmd.healthCheck r true],
        { st with androidSerial := some r, started := true, confirmedHealthy := true },
        .ok ()⟩ ∧
    ensureAndroidReadyWithRetry env retries st =
      ⟨[Cmd.invokeStartOrHeal, Cmd.adbDevices, Cmd.healthCheck r true],
        { st with androidSerial := some r, started := true, confirmedHealthy := true },
        .ok ()⟩ ∧
    (∀ cold, Cmd.emulatorBoot cold ∉ (ensureAndroidReadyWithRetry env retries st).trace) := by
  have hso : startOrHealAndroid (env 0) st =
      ⟨[Cmd.adbDevices, Cmd.healthCheck r true],
        { st with androidSerial := some r, started := true, confirmedHealthy := true },
        .ok ()⟩ := by
    unfold startOrHealAndroid
    rw [havd]
    simp only [hfind, hok]
    rfl
  have hmain : ensureAndroidReadyWithRetry env retries st =
      ⟨[Cmd.invokeStartOrHeal, Cmd.adbDevices, Cmd.healthCheck r true],
        { st with androidSerial := some r, started := true, confirmedHealthy := true },
        .ok ()⟩ := by
    unfold ensureAndroidReadyWithRetry
    cases retries with
    | zero => simp [ensureLoop, hso]
    | succ n => simp [ensureLoop, hso]
  refine ⟨hso, hmain, ?_⟩
  intro cold
  rw [hmain]
  simp

/-- A concrete Android environment where an emulator is already listed
and healthy. -/
def androidEnvHealthy : AndroidEnv :=
  { optAvdName := some "Pixel_6_API_34"
    envAvdName := none
    adbStdout := "List of devices attached\nemulator-5554\tdevice\n"
    healthy := fun _ => true
    coldRestartFlag := none
    coldBootCfg := false
    emuKillOk := true
    bootSerial := none
    bootCompleteOk := true
    waitHealthyOk := true }

/-- C2 (witness): with the default retry count and a fresh state, the
already-healthy emulator path issues only the listing and the health
check, and finishes started. -/
theorem ensureAndroidReady_healthy_no_boot_witness :
    ensureAndroidReadyWithRetry (fun _ => androidEnvHealthy) 2 initState =
      ⟨[Cmd.invokeStartOrHeal, Cmd.adbDevices, Cmd.healthCheck "emulator-5554" true],
        { initState with androidSerial := some "emulator-5554", started := true, confirmedHealthy := true },
        .ok ()⟩ ∧
    Cmd.emulatorBoot false ∉
      (ensureAndroidReadyWithRetry (fun _ => androidEnvHealthy) 2 initState).trace :=
  ⟨(ensureAndroidReady_healthy_no_boot (fun _ => androidEnvHealthy) 2 initState
      "Pixel_6_API_34" "emulator-5554" rfl (by decide) rfl).2.1,
    (ensureAndroidReady_healthy_no_boot (fun _ => androidEnvHealthy) 2 initState
      "Pixel_6_API_34" "emulator-5554" rfl (by decide) rfl).2.2 false⟩

/-! ### C9: iOS simulator already booted -/

/-- A concrete iOS environment whose target simulator is already
booted. -/
def iosEnvAlreadyBooted : IOSEnv :=
  { isDarwin := true
    optUdid := some "AAAAAAAA-BBBB-CCCC-DDDD-EEEEEEEEEEEE"
    envUdid := none
    optDeviceName := none
    envDeviceName := none
    foundUdid := fun _ => none
    headless := true
    isBootedBefore := true
    bootedAfterWait := true }

/-- C9 (counterexample): the claim says the already-booted path records
the UDID *and sets `started` to true*.  The source records the UDID and
returns, but never sets `started` on this path, so from a fresh state
`started` is still `false`. -/
theorem startIOS_already_booted_counterexample :
    (startIOS iosEnvAlreadyBooted initState).state.iosUdid =
      some "AAAAAAAA-BBBB-CCCC-DDDD-EEEEEEEEEEEE" ∧
    (startIOS iosEnvAlreadyBooted initState).state.started = false ∧
    (startIOS iosEnvAlreadyBooted initState).result = .ok () := by
  refine ⟨rfl, rfl, rfl⟩

/-- C9 (amended): when the resolved target simulator is already booted,
`startIOS` issues no boot command and does no polling — its only command
is the single booted-status query — records the UDID, and returns
successfully; the `started` flag is left unchanged (it is NOT set on
this path). -/
theorem startIOS_already_booted (env : IOSEnv) (st : DeviceState) (t : String)
    (hd : env.isDarwin = true) (ht : effTargetUdid env = some t)
    (hb : env.isBootedBefore = true) :
    startIOS env st =
      ⟨[Cmd.isBootedQuery t true],
        { st with iosUdid := some t, confirmedHealthy := true }, .ok ()⟩ ∧
    (startIOS env st).state.started = st.started ∧
    Cmd.simctlBoot t ∉ (startIOS env st).trace := by
  have hmain : startIOS env st =
      ⟨[Cmd.isBootedQuery t true],
        { st with iosUdid := some t, confirmedHealthy := true }, .ok ()⟩ := by
    unfold startIOS
    rw [hd, ht]
    simp [hb]
  refine ⟨hmain, by rw [hmain], by rw [hmain]; simp⟩

/-- C9 (witness for the amended claim): the concrete already-booted
environment from the counterexample. -/
theorem startIOS_already_booted_witness :
    startIOS iosEnvAlreadyBooted initState =
      ⟨[Cmd.isBootedQuery "AAAAAAAA-BBBB-CCCC-DDDD-EEEEEEEEEEEE" true],
        { initState with iosUdid := some "AAAAAAAA-BBBB-CCCC-DDDD-EEEEEEEEEEEE", confirmedHealthy := true },
        .ok ()⟩ ∧
    Cmd.simctlBoot "AAAAAAAA-BBBB-CCCC-DDDD-EEEEEEEEEEEE" ∉
      (startIOS iosEnvAlreadyBooted initState).trace :=
  ⟨(startIOS_already_booted iosEnvAlreadyBooted initState
      "AAAAAAAA-BBBB-CCCC-DDDD-EEEEEEEEEEEE" rfl rfl rfl).1,
    (startIOS_already_booted iosEnvAlreadyBooted initState
      "AAAAAAAA-BBBB-CCCC-DDDD-EEEEEEEEEEEE" rfl rfl rfl).2.2⟩

/-! ### C5: text-factory escaping and round-trip -/

/-- Unfolding `(a ++ b).data` for strings. -/
theorem strData_append (a b : String) : (a ++ b).data = a.data ++ b.data := rfl

/-- `dropWhile` is the identity when the head fails the predicate. -/
theorem dropWhile_eq_self_of_head (p : Char → Bool) (l : List Char)
    (h : ∀ c, l.head? = some c → p c = false) : l.dropWhile p = l := by
  cases l with
  | nil => rfl
  | cons c t => simp [List.dropWhile_cons, h c rfl]

/-- `trimChars` is the identity on a list whose first and last characters
are not whitespace. -/
theorem trimChars_eq_self (l : List Char)
    (h1 : ∀ c, l.head? = some c → c.isWhitespace = false)
    (h2 : ∀ c, l.getLast? = some c → c.isWhitespace = false) :
    trimChars l = l := by
  unfold trimChars
  rw [dropWhile_eq_self_of_head _ _ h1]
  rw [dropWhile_eq_self_of_head _ _ (by
    intro c hc
    exact h2 c (by rwa [List.head?_reverse] at hc))]
  exact List.reverse_reverse l

/-- `trimString` is the identity on a string whose first and last
characters are not whitespace. -/
theorem trimString_eq_self (s : String)
    (h1 : ∀ c, s.data.head? = some c → c.isWhitespace = false)
    (h2 : ∀ c, s.data.getLast? = some c → c.isWhitespace = false) :
    trimString s = s := by
  cases s with
  | mk data => 
    show String.mk (trimChars data) = String.mk data
    rw [trimChars_eq_self data h1 h2]

/-- A single already-canonical non-empty trimmed string survives
constructor normalization unchanged. -/
theorem normalizeList_single_str (s : String) (ht : trimString s = s) (hne : s ≠ "") :
    normalizeList (.single (.str s)) = some [s] := by
  simp [normalizeList, inputList, normalizeOne, ht, hne]

/-- Escaping with `quoteJavaChars` and parsing the literal body back
recovers the original characters, for every input. -/
theorem parseQuotedBody_quoteJava (s : List Char) :
    parseQuotedBody (quoteJavaChars s ++ ['"']) = some s := by
  induction s with
  | nil => rfl
  | cons c cs ih =>
    by_cases h1 : c = '\\'
    · subst h1
      simp [quoteJavaChars, parseQuotedBody, ih]
    · by_cases h2 : c = '"'
      · subst h2
        simp [quoteJavaChars, parseQuotedBody, ih]
      · rw [show quoteJavaChars (c :: cs) = c :: quoteJavaChars cs from by
          simp [quoteJavaChars, h1, h2]]
        rw [List.cons_append, parseQuotedBody.eq_def]
        simp [h1, h2, ih]

/-- Round-trip for the Android (Java string literal) dialect: holds for
every text, since `quoteJava` escapes both backslashes and quotes. -/
theorem parseQuoted_quoteJava (s : String) :
    parseQuoted (quoteJava s).data = some s.data := by
  show parseQuoted ('"' :: (quoteJavaChars s.data ++ ['"'])) = some s.data
  simpa [parseQuoted] using parseQuotedBody_quoteJava s.data

/-- Escaping with `quoteNSChars` and parsing back recovers the original
characters, provided the text contains no backslash (`quoteNS` does not
escape backslashes, so an embedded backslash would be re-interpreted as
an escape). -/
theorem parseQuotedBody_quoteNS (s : List Char) (h : '\\' ∉ s) :
    parseQuotedBody (quoteNSChars s ++ ['"']) = some s := by
  induction s with
  | nil => rfl
  | cons c cs ih =>
    have hc : c ≠ '\\' := fun hh => h (hh ▸ List.mem_cons_self c cs)
    have hcs : '\\' ∉ cs := fun hh => h (List.mem_cons_of_mem c hh)
    by_cases h2 : c = '"'
    · subst h2
      simp [quoteNSChars, parseQuotedBody, ih hcs]
    · rw [show quoteNSChars (c :: cs) = c :: quoteNSChars cs from by
        simp [quoteNSChars, h2]]
      rw [List.cons_append, parseQuotedBody.eq_def]
      simp [hc, h2, ih hcs]

/-- Round-trip for the iOS (NSPredicate) dialect under the no-backslash
hypothesis. -/
theorem parseQuoted_quoteNS (s : String) (h : '\\' ∉ s.data) :
    parseQuoted (quoteNS s).data = some s.data := by
  show parseQuoted ('"' :: (quoteNSChars s.data ++ ['"'])) = some s.data
  simpa [parseQuoted] using parseQuotedBody_quoteNS s.data h

/-- `getLast?` of a list ending in an explicit singleton. -/
theorem getLast?_append_singleton (l1 l2 : List Char) (c : Char) :
    (l1 ++ (l2 ++ [c])).getLast? = some c := by
  rw [← List.append_assoc]
  exact List.getLast?_concat _

/-- `getLast?` of a list ending in a `quoteNS`-shaped block. -/
theorem getLast?_append_quoteBlock (l1 l2 body : List Char) :
    (l1 ++ (l2 ++ ('"' :: (body ++ ['"'])))).getLast? = some '"' := by
  have : l1 ++ (l2 ++ ('"' :: (body ++ ['"']))) =
      (l1 ++ l2 ++ ('"' :: body)) ++ ['"'] := by
    simp [List.append_assoc]
  rw [this]
  exact List.getLast?_concat _

/-- Normalization keeps a single canonical selector string intact when its
first and last characters are non-whitespace. -/
theorem normalizeList_single_canonical (s : String) (c d : Char)
    (hh : s.data.head? = some c) (hl : s.data.getLast? = some d)
    (hc : c.isWhitespace = false) (hd : d.isWhitespace = false) :
    normalizeList (.single (.str s)) = some [s] := by
  have ht : trimString s = s := by
    refine trimString_eq_self s (fun x hx => ?_) (fun x hx => ?_)
    · rw [hh] at hx
      cases Option.some_inj.mp hx
      exact hc
    · rw [hl] at hx
      cases Option.some_inj.mp hx
      exact hd
  have hne : s ≠ "" := by
    intro he
    rw [he] at hh
    simp at hh
  exact normalizeList_single_str s ht hne

/-- `head?` of appended string data, determined by the left part. -/
theorem head?_data_append_lit (pre rest : String) (c : Char)
    (h : pre.data.head? = some c) : (pre ++ rest).data.head? = some c := by
  rw [strData_append]
  cases hp : pre.data with
  | nil => rw [hp] at h; cases h
  | cons x t =>
    rw [hp] at h
    cases Option.some_inj.mp h
    simp [hp]

/-- C5: for every input text, the exact-text and contains-text factories
store exactly the Android UiSelector expression built around the
`quoteJava`-escaped literal and the iOS NSPredicate built around the
`quoteNS`-escaped literal (normalization does not disturb them), and the
escaped literals parse back to exactly the original text — for the
Android (Java) dialect unconditionally (covering embedded quotes and
backslashes), and for the iOS (NSPredicate) dialect for every text
without an embedded backslash. -/
theorem byText_factories_roundtrip (text : String) :
    ((byTextExact text).android =
      some [toAndroidUIA ("new UiSelector().text(" ++ quoteJava text ++ ")")]) ∧
    ((byTextExact text).ios =
      some [toIOSPredicate ("name == " ++ quoteNS text ++ " OR label == " ++
        quoteNS text ++ " OR value == " ++ quoteNS text)]) ∧
    ((byTextContains text).android =
      some [toAndroidUIA ("new UiSelector().textContains(" ++ quoteJava text ++ ")")]) ∧
    ((byTextContains text).ios =
      some [toIOSPredicate ("name CONTAINS " ++ quoteNS text ++ " OR label CONTAINS " ++
        quoteNS text ++ " OR value CONTAINS " ++ quoteNS text)]) ∧
    (parseQuoted (quoteJava text).data = some text.data) ∧
    ('\\' ∉ text.data → parseQuoted (quoteNS text).data = some text.data) := by
  refine ⟨?_, ?_, ?_, ?_, parseQuoted_quoteJava text, parseQuoted_quoteNS text⟩
  · have hh : (toAndroidUIA ("new UiSelector().text(" ++ quoteJava text ++ ")")).data.head? =
        some 'a' := by
      exact head?_data_append_lit "android=" _ 'a' (by decide)
    have hl : (toAndroidUIA ("new UiSelector().text(" ++ quoteJava text ++ ")")).data.getLast? =
        some ')' := by
      show ("android=" ++ (("new UiSelector().text(" ++ quoteJava text) ++ ")")).data.getLast? =
        some ')'
      rw [strData_append, strData_append,
        show (")" : String).data = [')'] from rfl]
      exact getLast?_append_singleton _ _ ')'
    simp only [byTextExact, pageElement]
    exact normalizeList_single_canonical _ 'a' ')' hh hl (by decide) (by decide)
  · have hh : (toIOSPredicate ("name == " ++ quoteNS text ++ " OR label == " ++
        quoteNS text ++ " OR value == " ++ quoteNS text)).data.head? = some '-' := by
      exact head?_data_append_lit "-ios predicate string:" _ '-' (by decide)
    have hl : (toIOSPredicate ("name == " ++ quoteNS text ++ " OR label == " ++
        quoteNS text ++ " OR value == " ++ quoteNS text)).data.getLast? = some '"' := by
      show ("-ios predicate string:" ++
        (("name == " ++ quoteNS text ++ " OR label == " ++ quoteNS text ++ " OR value == ") ++
          quoteNS text)).data.getLast? = some '"'
      rw [strData_append, strData_append,
        show (quoteNS text).data = '"' :: (quoteNSChars text.data ++ ['"']) from rfl]
      exact getLast?_append_quoteBlock _ _ _
    simp only [byTextExact, pageElement]
    exact normalizeList_single_canonical _ '-' '"' hh hl (by decide) (by decide)
  · have hh : (toAndroidUIA ("new UiSelector().textContains(" ++ quoteJava text ++ ")")).data.head? =
        some 'a' := by
      exact head?_data_append_lit "android=" _ 'a' (by decide)
    have hl : (toAndroidUIA ("new UiSelector().textContains(" ++ quoteJava text ++ ")")).data.getLast? =
        some ')' := by
      show ("android=" ++ (("new UiSelector().textContains(" ++ quoteJava text) ++ ")")).data.getLast? =
        some ')'
      rw [strData_append, strData_append,
        show (")" : String).data = [')'] from rfl]
      exact getLast?_append_singleton _ _ ')'
    simp only [byTextContains, pageElement]
    exact normalizeList_single_canonical _ 'a' ')' hh hl (by decide) (by decide)
  · have hh : (toIOSPredicate ("name CONTAINS " ++ quoteNS text ++ " OR label CONTAINS " ++
        quoteNS text ++ " OR value CONTAINS " ++ quoteNS text)).data.head? = some '-' := by
      exact head?_data_append_lit "-ios predicate string:" _ '-' (by decide)
    have hl : (toIOSPredicate ("name CONTAINS " ++ quoteNS text ++ " OR label CONTAINS " ++
        quoteNS text ++ " OR value CONTAINS " ++ quoteNS text)).data.getLast? = some '"' := by
      show ("-ios predicate string:" ++
        (("name CONTAINS " ++ quoteNS text ++ " OR label CONTAINS " ++ quoteNS text ++
          " OR value CONTAINS ") ++ quoteNS text)).data.getLast? = some '"'
      rw [strData_append, strData_append,
        show (quoteNS text).data = '"' :: (quoteNSChars text.data ++ ['"']) from rfl]
      exact getLast?_append_quoteBlock _ _ _
    simp only [byTextContains, pageElement]
    exact normalizeList_single_canonical _ '-' '"' hh hl (by decide) (by decide)

/-- C5 (witness): concrete texts — one with an embedded double quote, one
with an embedded backslash (Android dialect). -/
theorem byText_factories_roundtrip_witness :
    (parseQuoted (quoteJava "He said \"hi\"").data = some ("He said \"hi\"".data)) ∧
    (parseQuoted (quoteNS "He said \"hi\"").data = some ("He said \"hi\"".data)) ∧
    (parseQuoted (quoteJava "C:\\tmp").data = some ("C:\\tmp".data)) ∧
    ((byTextExact "He said \"hi\"").android =
      some [toAndroidUIA ("new UiSelector().text(" ++ quoteJava "He said \"hi\"" ++ ")")]) :=
  ⟨(byText_factories_roundtrip "He said \"hi\"").2.2.2.2.1,
    (byText_factories_roundtrip "He said \"hi\"").2.2.2.2.2 (by decide),
    (byText_factories_roundtrip "C:\\tmp").2.2.2.2.1,
    (byText_factories_roundtrip "He said \"hi\"").1⟩

/-! ### C7: diagnostics collection never aborts; notes behaviour -/

/-- A concrete probe environment whose context query throws while every
other probe succeeds (iOS with TCC readable). -/
def diagEnvContextThrows : DiagEnv :=
  { isAndroid := false
    timestamp := "2024-01-01T00:00:00Z"
    sessionId := some "sess-2"
    getContext := .error "context boom"
    getContexts := .ok ["NATIVE_APP"]
    getWindowRect := .ok ⟨0, 0, 390, 844⟩
    getPageSource := .ok "<hierarchy/>"
    getCurrentPackage := .ok none
    getCurrentActivity := .ok none
    envAndroidAppPackage := none
    dumpsys := .ok ""
    includeRawDump := false
    envIosUdid := some "UDID-Y"
    envIosBundleId := some "com.example.app"
    tccQuery := .ok "" }

/-- C7 (counterexample): the claim says every failing sub-step — the
context query included — appends a note.  With the context query
throwing and everything else succeeding, the bundle's `context` field is
absent but `notes` is empty: the context (and window-geometry) guards
are bare `catch {}` blocks that append nothing. -/
theorem collectFailureBundle_context_note_counterexample :
    (collectFailureBundle diagEnvContextThrows ⟨none, none, none, none⟩).context = none ∧
    (collectFailureBundle diagEnvContextThrows ⟨none, none, none, none⟩).notes = [] := by
  constructor
  · rfl
  · rfl

/-- C7 (amended): `collectFailureBundle` is a total function — every
combination of failing probes still yields a bundle (with its timestamp,
platform and session id) and no failing step aborts the remaining
collection.  A failing UI-tree dump, an unresolved Android app identity,
and a failing permission-table read (Android `dumpsys` or iOS TCC,
including missing UDID/bundle id) each append their human-readable note
and leave their field absent.  A failing context query or window-geometry
query leaves its field absent but appends NO note (their guards swallow
the error silently), and the notes are entirely independent of those two
probes' outcomes. -/
theorem collectFailureBundle_never_aborts (env : DiagEnv) (opts : DiagOpts) :
    ((collectFailureBundle env opts).timestamp = env.timestamp ∧
      (collectFailureBundle env opts).sessionId = env.sessionId) ∧
    (∀ e, env.getContext = .error e → (collectFailureBundle env opts).context = none) ∧
    (∀ e, env.getWindowRect = .error e → (collectFailureBundle env opts).windowRect = none) ∧
    (∀ g gs w,
      (collectFailureBundle
        { env with getContext := g, getContexts := gs, getWindowRect := w } opts).notes =
      (collectFailureBundle env opts).notes) ∧
    (∀ e, env.getPageSource = .error e → opts.includePageSource.getD true = true →
      (collectFailureBundle env opts).pageSource = none ∧
      ("getPageSource() failed: " ++ e) ∈ (collectFailureBundle env opts).notes) ∧
    (env.isAndroid = true → androidPkg env opts = none →
      (collectFailureBundle env opts).permissions = none ∧
      "packageId not resolved for Android (set ANDROID_APP_PACKAGE or pass opts.packageId)" ∈
        (collectFailureBundle env opts).notes) ∧
    (∀ e p, env.isAndroid = true → androidPkg env opts = some p → env.dumpsys = .error e →
      (collectFailureBundle env opts).permissions = none ∧
      ("android dumpsys parse failed: " ++ e) ∈ (collectFailureBundle env opts).notes) ∧
    (env.isAndroid = false →
      ((strTruthy env.envIosUdid).isSome &&
        ((strTruthy opts.bundleId).orElse fun _ => strTruthy env.envIosBundleId).isSome) = false →
      (collectFailureBundle env opts).permissions = none ∧
      "iOS permissions collection requires IOS_UDID and bundleId (IOS_BUNDLE_ID or opts.bundleId)" ∈
        (collectFailureBundle env opts).notes) ∧
    (∀ e, env.isAndroid = false →
      ((strTruthy env.envIosUdid).isSome &&
        ((strTruthy opts.bundleId).orElse fun _ => strTruthy env.envIosBundleId).isSome) = true →
      env.tccQuery = .error e →
      (collectFailureBundle env opts).permissions = none ∧
      ("iOS Simulator TCC read failed: " ++ e) ∈ (collectFailureBundle env opts).notes) := by
  refine ⟨⟨rfl, rfl⟩, ?_, ?_, ?_, ?_, ?_, ?_, ?_, ?_⟩
  · intro e he
    simp [collectFailureBundle, he]
  · intro e he
    simp [collectFailureBundle, he]
  · intro g gs w
    simp [collectFailureBundle, pageSourcePart, androidPermPart, iosPermPart, androidPkg]
  · intro e he hinc
    have : pageSourcePart env opts = (none, ["getPageSource() failed: " ++ e]) := by
      simp [pageSourcePart, he, hinc]
    constructor
    · simp [collectFailureBundle, this]
    · simp [collectFailureBundle, this]
  · intro ha hpkg
    have : androidPermPart env opts =
        (some { packageId := none, bundleId := none,
                activity := match env.getCurrentActivity with
                  | .ok a => a
                  | .error _ => none },
          none,
          ["packageId not resolved for Android (set ANDROID_APP_PACKAGE or pass opts.packageId)"]) := by
      simp [androidPermPart, hpkg]
    constructor
    · simp [collectFailureBundle, ha, this]
    · simp [collectFailureBundle, ha, this]
  · intro e p ha hpkg hdump
    have : androidPermPart env opts =
        (some { packageId := some p, bundleId := none,
                activity := match env.getCurrentActivity with
                  | .ok a => a
                  | .error _ => none },
          none, ["android dumpsys parse failed: " ++ e]) := by
      simp [androidPermPart, hpkg, hdump]
    constructor
    · simp [collectFailureBundle, ha, this]
    · simp [collectFailureBundle, ha, this]
  · intro ha hmiss
    have : iosPermPart env opts =
        (some { packageId := none,
                bundleId := (strTruthy opts.bundleId).orElse fun _ => strTruthy env.envIosBundleId,
                activity := none },
          none,
          ["iOS permissions collection requires IOS_UDID and bundleId (IOS_BUNDLE_ID or opts.bundleId)"]) := by
      simp only [iosPermPart, hmiss]
      rfl
    constructor
    · simp [collectFailureBundle, ha, this]
    · simp [collectFailureBundle, ha, this]
  · intro e ha hboth htcc
    have : iosPermPart env opts =
        (some { packageId := none,
                bundleId := (strTruthy opts.bundleId).orElse fun _ => strTruthy env.envIosBundleId,
                activity := none },
          none, ["iOS Simulator TCC read failed: " ++ e]) := by
      simp only [iosPermPart, hboth, htcc]
      rfl
    constructor
    · simp [collectFailureBundle, ha, this]
    · simp [collectFailureBundle, ha, this]

/-- An Android probe environment in which every guarded probe throws and
no package id is resolvable. -/
def diagEnvAllFailAndroid : DiagEnv :=
  { isAndroid := true
    timestamp := "2024-01-01T00:00:01Z"
    sessionId := none
    getContext := .error "e-ctx"
    getContexts := .error "e-ctxs"
    getWindowRect := .error "e-rect"
    getPageSource := .error "e-src"
    getCurrentPackage := .error "e-pkg"
    getCurrentActivity := .error "e-act"
    envAndroidAppPackage := none
    dumpsys := .error "e-dump"
    includeRawDump := false
    envIosUdid := none
    envIosBundleId := none
    tccQuery := .error "e-tcc" }

/-- C7 (witness): with every probe failing, a bundle is still produced —
absent fields for the silently-guarded steps, notes for the noted ones. -/
theorem collectFailureBundle_never_aborts_witness :
    ((collectFailureBundle diagEnvAllFailAndroid ⟨none, none, none, none⟩).timestamp =
      "2024-01-01T00:00:01Z") ∧
    ((collectFailureBundle diagEnvAllFailAndroid ⟨none, none, none, none⟩).context = none) ∧
    ((collectFailureBundle diagEnvAllFailAndroid ⟨none, none, none, none⟩).windowRect = none) ∧
    ((collectFailureBundle diagEnvAllFailAndroid ⟨none, none, none, none⟩).pageSource = none ∧
      ("getPageSource() failed: " ++ "e-src") ∈
        (collectFailureBundle diagEnvAllFailAndroid ⟨none, none, none, none⟩).notes) ∧
    ((collectFailureBundle diagEnvAllFailAndroid ⟨none, none, none, none⟩).permissions = none ∧
      "packageId not resolved for Android (set ANDROID_APP_PACKAGE or pass opts.packageId)" ∈
        (collectFailureBundle diagEnvAllFailAndroid ⟨none, none, none, none⟩).notes) :=
  ⟨(collectFailureBundle_never_aborts diagEnvAllFailAndroid ⟨none, none, none, none⟩).1.1,
    (collectFailureBundle_never_aborts diagEnvAllFailAndroid ⟨none, none, none, none⟩).2.1
      "e-ctx" rfl,
    (collectFailureBundle_never_aborts diagEnvAllFailAndroid ⟨none, none, none, none⟩).2.2.1
      "e-rect" rfl,
    (collectFailureBundle_never_aborts diagEnvAllFailAndroid ⟨none, none, none, none⟩).2.2.2.2.1
      "e-src" rfl rfl,
    (collectFailureBundle_never_aborts diagEnvAllFailAndroid ⟨none, none, none, none⟩).2.2.2.2.2.1
      rfl rfl⟩

/-! ### C6: the `started` invariant -/

/-- The DeviceSession invariant: a started service knows a device
identifier and has observed a successful health confirmation. -/
def DevInv (st : DeviceState) : Prop :=
  st.started = true →
    (st.androidSerial.isSome = true ∨ st.iosUdid.isSome = true) ∧
      st.confirmedHealthy = true

/-- `stopAndroid` never changes the tracked state. -/
theorem stopAndroid_state (env : AndroidEnv) (st : DeviceState) :
    (stopAndroid env st).2 = st := by
  unfold stopAndroid
  split
  · rfl
  · split <;> rfl

/-- `startAndroid` preserves the invariant: it only sets `started` after
recording the serial and observing `waitForAndroidHealthy` succeed. -/
theorem DevInv_startAndroid (env : AndroidEnv) (c : Bool) (st : DeviceState)
    (h : DevInv st) : DevInv (startAndroid env c st).state := by
  cases hb : env.bootSerial with
  | none =>
    simp only [startAndroid, hb]
    exact h
  | some serial =>
    cases hbc : env.bootCompleteOk with
    | false =>
      simp only [startAndroid, hb, hbc, Bool.false_eq_true, if_false]
      intro hs
      exact ⟨Or.inl rfl, (h hs).2⟩
    | true =>
      cases hwh : env.waitHealthyOk with
      | false =>
        simp only [startAndroid, hb, hbc, hwh, Bool.false_eq_true, if_true, if_false]
        intro hs
        exact ⟨Or.inl rfl, (h hs).2⟩
      | true =>
        simp only [startAndroid, hb, hbc, hwh, if_true]
        intro hs
        exact ⟨Or.inl rfl, rfl⟩

/-- `startOrHealAndroid` preserves the invariant: the healthy path sets
`started` together with the serial and the health observation; the heal
path delegates to `startAndroid`. -/
theorem DevInv_startOrHealAndroid (env : AndroidEnv) (st : DeviceState)
    (h : DevInv st) : DevInv (startOrHealAndroid env st).state := by
  cases havd : effAvdName env with
  | none =>
    simp only [startOrHealAndroid, havd]
    exact h
  | some a =>
    cases hf : (parseAdbDevices env.adbStdout).find?
        (fun d => strStartsWith d "emulator-") with
    | none =>
      simp only [startOrHealAndroid, havd, hf]
      exact DevInv_startAndroid env false st h
    | some running =>
      cases hok : env.healthy running with
      | true =>
        simp only [startOrHealAndroid, havd, hf, hok, if_true]
        intro hs
        exact ⟨Or.inl rfl, rfl⟩
      | false =>
        simp only [startOrHealAndroid, havd, hf, hok, Bool.false_eq_true, if_false]
        rw [stopAndroid_state env { st with androidSerial := some running }]
        refine DevInv_startAndroid env (env.coldRestartFlag.getD true) _ ?_
        intro hs
        exact ⟨Or.inl rfl, (h hs).2⟩

/-- The retry loop preserves the invariant. -/
theorem DevInv_ensureLoop (env : Nat → AndroidEnv) :
    ∀ (remaining attempt : Nat) (st : DeviceState), DevInv st →
      DevInv (ensureLoop env remaining attempt st).state := by
  intro remaining
  induction remaining with
  | zero =>
    intro attempt st h
    cases hr : (startOrHealAndroid (env attempt) st).result with
    | ok u =>
      simp only [ensureLoop, hr]
      exact DevInv_startOrHealAndroid (env attempt) st h
    | error e =>
      simp only [ensureLoop, hr]
      exact DevInv_startOrHealAndroid (env attempt) st h
  | succ n ih =>
    intro attempt st h
    cases hr : (startOrHealAndroid (env attempt) st).result with
    | ok u =>
      simp only [ensureLoop, hr]
      exact DevInv_startOrHealAndroid (env attempt) st h
    | error e =>
      simp only [ensureLoop, hr]
      exact ih (attempt + 1) _ (DevInv_startOrHealAndroid (env attempt) st h)

/-- `startIOS` preserves the invariant: `started` is only set on the
fresh-boot success path, together with the UDID and the booted
observation. -/
theorem DevInv_startIOS (env : IOSEnv) (st : DeviceState) (h : DevInv st) :
    DevInv (startIOS env st).state := by
  cases hd : env.isDarwin with
  | false =>
    simp only [startIOS, hd]
    exact h
  | true =>
    cases ht : effTargetUdid env with
    | none =>
      simp only [startIOS, hd, ht]
      exact h
    | some t =>
      cases hb : env.isBootedBefore with
      | true =>
        simp only [startIOS, hd, ht, hb, if_true]
        intro hs
        exact ⟨Or.inr rfl, rfl⟩
      | false =>
        cases hw : env.bootedAfterWait with
        | true =>
          simp only [startIOS, hd, ht, hb, hw, Bool.false_eq_true, if_false, if_true]
          intro hs
          exact ⟨Or.inr rfl, rfl⟩
        | false =>
          simp only [startIOS, hd, ht, hb, hw, Bool.false_eq_true, if_false]
          exact h

/-- `stopIOS` never changes the tracked state. -/
theorem stopIOS_state (st : DeviceState) : (stopIOS st).2 = st := by
  unfold stopIOS
  cases st.iosUdid with
  | none => rfl
  | some u => rfl

/-- All three WDIO hooks preserve the invariant. -/
theorem DevInv_hooks (env : ServiceEnv) (st : DeviceState) (h : DevInv st) :
    DevInv (onPrepare env st).state ∧ DevInv (beforeSession env st).state ∧
      DevInv (onComplete env st).state := by
  refine ⟨?_, ?_, ?_⟩
  · unfold onPrepare
    cases env.platform with
    | android => exact DevInv_ensureLoop env.androidEnv env.androidRetries 0 st h
    | ios => exact DevInv_startIOS env.iosEnv st h
  · unfold beforeSession
    cases env.platform with
    | android => exact DevInv_ensureLoop env.androidEnv env.androidRetries 0 st h
    | ios => exact h
  · cases hs : st.started with
    | false =>
      simp only [onComplete, hs, if_true]
      exact h
    | true =>
      cases hp : env.platform with
      | android =>
        cases hk : env.killOnCompleteAndroid.getD true with
        | true =>
          simp only [onComplete, hs, hp, hk, Bool.true_eq_false, if_false, if_true]
          rw [stopAndroid_state env.stopEnv st]
          exact h
        | false =>
          simp only [onComplete, hs, hp, hk, Bool.true_eq_false, Bool.false_eq_true,
            if_false]
          exact h
      | ios =>
        cases hk : env.killOnCompleteIOS.getD false with
        | true =>
          simp only [onComplete, hs, hp, hk, Bool.true_eq_false, if_false, if_true]
          rw [stopIOS_state st]
          exact h
        | false =>
          simp only [onComplete, hs, hp, hk, Bool.true_eq_false, Bool.false_eq_true,
            if_false]
          exact h

/-- Every reachable state satisfies the invariant. -/
theorem Reachable_DevInv (st : DeviceState) (h : Reachable st) : DevInv st := by
  induction h with
  | init => intro hs; cases hs
  | prepare env st' hr ih => exact (DevInv_hooks env st' ih).1
  | before env st' hr ih => exact (DevInv_hooks env st' ih).2.1
  | complete env st' hr ih => exact (DevInv_hooks env st' ih).2.2

/-- C6: in every state reachable by any sequence of lifecycle hook
invocations, `started = true` implies a device identifier (Android serial
or iOS UDID) is recorded and a successful health confirmation (Android
health check passed, or simulator observed booted) happened before
`started` became true. -/
theorem started_implies_identified_and_healthy (st : DeviceState)
    (h : Reachable st) (hs : st.started = true) :
    (st.androidSerial.isSome = true ∨ st.iosUdid.isSome = true) ∧
      st.confirmedHealthy = true :=
  Reachable_DevInv st h hs

/-- The service environment for the C6 witness: Android, with an
already-healthy listed emulator. -/
def svcEnvHealthy : ServiceEnv :=
  { platform := .android
    androidEnv := fun _ => androidEnvHealthy
    androidRetries := 2
    iosEnv := iosEnvAlreadyBooted
    killOnCompleteAndroid := none
    killOnCompleteIOS := none
    stopEnv := androidEnvHealthy }

/-- C6 (witness): after a concrete successful `onPrepare`, the reachable
state is started, and the theorem yields the recorded serial and the
health confirmation. -/
theorem started_implies_identified_and_healthy_witness :
    (onPrepare svcEnvHealthy initState).state.started = true ∧
    (((onPrepare svcEnvHealthy initState).state.androidSerial.isSome = true ∨
        (onPrepare svcEnvHealthy initState).state.iosUdid.isSome = true) ∧
      (onPrepare svcEnvHealthy initState).state.confirmedHealthy = true) :=
  ⟨rfl,
    started_implies_identified_and_healthy (onPrepare svcEnvHealthy initState).state
      (Reachable.prepare svcEnvHealthy initState Reachable.init) rfl⟩

/-! ### C1: retry loop with linear backoff on persistent failure -/

/-- The milliseconds of a `sleep` trace event. -/
def sleepMs : Cmd → Option Nat
  | .sleep ms => some ms
  | _ => none

/-- `startAndroid` emits neither loop markers nor sleep events (its
polling pauses are wall-clock driven and not part of the retry
backoff). -/
theorem startAndroid_trace_clean (env : AndroidEnv) (c : Bool) (st : DeviceState) :
    Cmd.invokeStartOrHeal ∉ (startAndroid env c st).trace ∧
      (∀ ms, Cmd.sleep ms ∉ (startAndroid env c st).trace) := by
  cases hb : env.bootSerial with
  | none => simp [startAndroid, hb]
  | some serial =>
    cases hbc : env.bootCompleteOk with
    | false => simp [startAndroid, hb, hbc]
    | true =>
      cases hwh : env.waitHealthyOk with
      | false => simp [startAndroid, hb, hbc, hwh]
      | true => simp [startAndroid, hb, hbc, hwh]

/-- `stopAndroid` emits neither loop markers nor sleep events. -/
theorem stopAndroid_trace_clean (env : AndroidEnv) (st : DeviceState) :
    Cmd.invokeStartOrHeal ∉ (stopAndroid env st).1 ∧
      (∀ ms, Cmd.sleep ms ∉ (stopAndroid env st).1) := by
  unfold stopAndroid
  split
  · simp
  · split <;> simp

/-- One run of the start-or-heal sequence emits neither loop markers nor
sleep events. -/
theorem startOrHealAndroid_trace_clean (env : AndroidEnv) (st : DeviceState) :
    Cmd.invokeStartOrHeal ∉ (startOrHealAndroid env st).trace ∧
      (∀ ms, Cmd.sleep ms ∉ (startOrHealAndroid env st).trace) := by
  cases havd : effAvdName env with
  | none => simp [startOrHealAndroid, havd]
  | some a =>
    cases hf : (parseAdbDevices env.adbStdout).find?
        (fun d => strStartsWith d "emulator-") with
    | none =>
      have hA := startAndroid_trace_clean env false st
      simp only [startOrHealAndroid, havd, hf]
      refine ⟨?_, fun ms => ?_⟩
      · simp [hA.1]
      · simp [hA.2 ms]
    | some running =>
      cases hok : env.healthy running with
      | true => simp [startOrHealAndroid, havd, hf, hok]
      | false =>
        have hS := stopAndroid_trace_clean env { st with androidSerial := some running }
        have hA := startAndroid_trace_clean env (env.coldRestartFlag.getD true)
          (stopAndroid env { st with androidSerial := some running }).2
        simp only [startOrHealAndroid, havd, hf, hok, Bool.false_eq_true, if_false]
        refine ⟨?_, fun ms => ?_⟩
        · simp [hS.1, hA.1]
        · simp [hS.2 ms, hA.2 ms]

/-- `filterMap sleepMs` vanishes on a sleep-free trace. -/
theorem filterMap_sleepMs_eq_nil (tr : List Cmd) (h : ∀ ms, Cmd.sleep ms ∉ tr) :
    tr.filterMap sleepMs = [] := by
  rw [List.filterMap_eq_nil_iff]
  intro a ha
  cases a <;> try rfl
  exact absurd ha (h _)

/-- The state after `j` consecutive runs of the start-or-heal sequence
(attempt numbers `base, base+1, …`), threading the state through. -/
def attemptState (env : Nat → AndroidEnv) (st : DeviceState) (base : Nat) :
    Nat → DeviceState
  | 0 => st
  | j + 1 => (startOrHealAndroid (env (base + j)) (attemptState env st base j)).state

/-- Shifting the attempt base by one across the first run. -/
theorem attemptState_shift (env : Nat → AndroidEnv) (st : DeviceState) (base : Nat) :
    ∀ j, attemptState env ((startOrHealAndroid (env base) st).state) (base + 1) j =
      attemptState env st base (j + 1) := by
  intro j
  induction j with
  | zero => simp [attemptState]
  | succ n ih =>
    have hR : attemptState env st base (n + 1 + 1) =
        (startOrHealAndroid (env (base + (n + 1)))
          (attemptState env st base (n + 1))).state := rfl
    rw [hR, ← ih, show base + (n + 1) = base + 1 + n from by omega]
    rfl

/-- `flatMap` across a shifted index list. -/
theorem flatMap_map_succ (l : List Nat) (g : Nat → List Cmd) :
    (l.map Nat.succ).flatMap g = l.flatMap fun j => g (j + 1) := by
  have hg : (g ∘ Nat.succ) = fun j => g (j + 1) := by
    funext j
    simp [Function.comp, Nat.succ_eq_add_one]
  simp [List.flatMap, List.map_map, hg]

/-- Splitting the first block off an all-attempts trace. -/
theorem flatMapBlocks_succ (F : Nat → List Cmd) (n : Nat) :
    (List.range (n + 1 + 1)).flatMap F =
      F 0 ++ (List.range (n + 1)).flatMap fun j => F (j + 1) := by
  rw [List.range_succ_eq_map, List.flatMap_cons, flatMap_map_succ]

/-- The closed form of the retry loop when every attempt fails: one block
per attempt, each consisting of the loop marker, that attempt's
start-or-heal trace, the `adb start-server` recovery, and — between
attempts only — the linear-backoff sleep of `1500 * attemptNumber` ms;
the final state threads all attempts and the result is the last
attempt's error. -/
theorem ensureLoop_allFail (env : Nat → AndroidEnv) (err : Nat → String)
    (h : ∀ i s, (startOrHealAndroid (env i) s).result = .error (err i)) :
    ∀ remaining base st,
      ensureLoop env remaining base st =
        ⟨(List.range (remaining + 1)).flatMap fun j =>
            Cmd.invokeStartOrHeal ::
              ((startOrHealAndroid (env (base + j)) (attemptState env st base j)).trace ++
                ([Cmd.adbStartServer] ++
                  if j < remaining then [Cmd.sleep (1500 * (base + j + 1))] else [])),
          attemptState env st base (remaining + 1),
          .error (err (base + remaining))⟩ := by
  intro remaining
  induction remaining with
  | zero =>
    intro base st
    simp only [ensureLoop, h base st]
    rw [show List.range 1 = [0] from rfl, List.flatMap_cons, List.flatMap_nil]
    simp [attemptState]
  | succ n ih =>
    intro base st
    simp only [ensureLoop, h base st]
    rw [ih (base + 1) ((startOrHealAndroid (env base) st).state)]
    simp only [StepResult.mk.injEq]
    refine ⟨?_, ?_, ?_⟩
    · symm
      rw [flatMapBlocks_succ]
      have hpoint : ∀ j : Nat,
          (Cmd.invokeStartOrHeal ::
            ((startOrHealAndroid (env (base + (j + 1)))
                (attemptState env st base (j + 1))).trace ++
              ([Cmd.adbStartServer] ++
                if j + 1 < n + 1 then [Cmd.sleep (1500 * (base + (j + 1) + 1))] else []))) =
          (Cmd.invokeStartOrHeal ::
            ((startOrHealAndroid (env (base + 1 + j))
                (attemptState env ((startOrHealAndroid (env base) st).state)
                  (base + 1) j)).trace ++
              ([Cmd.adbStartServer] ++
                if j < n then [Cmd.sleep (1500 * (base + 1 + j + 1))] else []))) := by
        intro j
        rw [attemptState_shift env st base j,
          show base + 1 + j = base + (j + 1) from by omega,
          show (if j + 1 < n + 1 then [Cmd.sleep (1500 * (base + (j + 1) + 1))] else []) =
            (if j < n then [Cmd.sleep (1500 * (base + (j + 1) + 1))] else []) from
            if_congr (by omega) rfl rfl]
      have hfun := funext hpoint
      simp only [hfun]
      simp [attemptState, List.append_assoc, Nat.succ_pos]
    · rw [attemptState_shift env st base (n + 1)]
    · rw [show base + 1 + n = base + (n + 1) from by omega]

/-- Counting over a concatenation of blocks that each contain the counted
element exactly once. -/
theorem count_flatMap_ones :
    ∀ (l : List Nat) (f : Nat → List Cmd),
      (∀ j ∈ l, (f j).count Cmd.invokeStartOrHeal = 1) →
      (l.flatMap f).count Cmd.invokeStartOrHeal = l.length := by
  intro l
  induction l with
  | nil => intro f _; rfl
  | cons x xs ih =>
    intro f hf
    rw [List.flatMap_cons, List.count_append, hf x (List.mem_cons_self x xs),
      ih f fun j hj => hf j (List.mem_cons_of_mem x hj)]
    simp [List.length_cons]
    omega

/-- `filterMap` distributes over `flatMap`. -/
theorem filterMap_flatMap (g : Cmd → Option Nat) :
    ∀ (l : List Nat) (f : Nat → List Cmd),
      (l.flatMap f).filterMap g = l.flatMap fun j => (f j).filterMap g := by
  intro l
  induction l with
  | nil => intro f; rfl
  | cons x xs ih =>
    intro f
    rw [List.flatMap_cons, List.flatMap_cons, List.filterMap_append, ih f]

/-- A `flatMap` of singletons is a `map`. -/
theorem flatMap_singletons :
    ∀ (l : List Nat) (f : Nat → List Nat) (g : Nat → Nat),
      (∀ j ∈ l, f j = [g j]) → l.flatMap f = l.map g := by
  intro l
  induction l with
  | nil => intro f g _; rfl
  | cons x xs ih =>
    intro f g hf
    rw [List.flatMap_cons, List.map_cons, hf x (List.mem_cons_self x xs),
      ih f g fun j hj => hf j (List.mem_cons_of_mem x hj)]
    rfl

/-- Each all-fail block contains the loop marker exactly once. -/
theorem allFail_block_count (env : Nat → AndroidEnv) (st : DeviceState)
    (base remaining : Nat) (j : Nat) :
    (Cmd.invokeStartOrHeal ::
        ((startOrHealAndroid (env (base + j)) (attemptState env st base j)).trace ++
          ([Cmd.adbStartServer] ++
            if j < remaining then [Cmd.sleep (1500 * (base + j + 1))] else []))).count
      Cmd.invokeStartOrHeal = 1 := by
  have h0 : (startOrHealAndroid (env (base + j)) (attemptState env st base j)).trace.count
      Cmd.invokeStartOrHeal = 0 :=
    List.count_eq_zero_of_not_mem
      (startOrHealAndroid_trace_clean (env (base + j)) (attemptState env st base j)).1
  rw [List.count_cons]
  rw [List.count_append, List.count_append, h0]
  split <;> simp

/-- The sleeps contributed by one all-fail block. -/
theorem allFail_block_sleeps (env : Nat → AndroidEnv) (st : DeviceState)
    (base remaining : Nat) (j : Nat) :
    (Cmd.invokeStartOrHeal ::
        ((startOrHealAndroid (env (base + j)) (attemptState env st base j)).trace ++
          ([Cmd.adbStartServer] ++
            if j < remaining then [Cmd.sleep (1500 * (base + j + 1))] else []))).filterMap
      sleepMs = if j < remaining then [1500 * (base + j + 1)] else [] := by
  have h0 : (startOrHealAndroid (env (base + j)) (attemptState env st base j)).trace.filterMap
      sleepMs = [] :=
    filterMap_sleepMs_eq_nil _
      (startOrHealAndroid_trace_clean (env (base + j)) (attemptState env st base j)).2
  rw [List.filterMap_cons_none (by rfl), List.filterMap_append, h0,
    List.filterMap_append]
  split <;> rfl

/-- C1: when every attempt of the Android start-or-heal sequence fails,
`ensureAndroidReadyWithRetry` with retry count `retries`
(`ANDROID_EMULATOR_RETRIES`, default 2) (i) produces exactly the
per-attempt block trace — for each attempt its start-or-heal run, then
the `adb start-server` recovery, then (between consecutive attempts
only) the backoff sleep; (ii) runs the sequence exactly `retries + 1`
times; (iii) sleeps exactly `1500 * attemptNumber` ms between
consecutive attempts, a strictly increasing sequence; and (iv) raises
the error of the last attempt. -/
theorem ensureAndroidReady_allFail_backoff (env : Nat → AndroidEnv)
    (err : Nat → String) (retries : Nat) (st : DeviceState)
    (h : ∀ i s, (startOrHealAndroid (env i) s).result = .error (err i)) :
    (ensureAndroidReadyWithRetry env retries st =
      ⟨(List.range (retries + 1)).flatMap fun j =>
          Cmd.invokeStartOrHeal ::
            ((startOrHealAndroid (env j) (attemptState env st 0 j)).trace ++
              ([Cmd.adbStartServer] ++
                if j < retries then [Cmd.sleep (1500 * (j + 1))] else [])),
        attemptState env st 0 (retries + 1),
        .error (err retries)⟩) ∧
    ((ensureAndroidReadyWithRetry env retries st).trace.count Cmd.invokeStartOrHeal =
      retries + 1) ∧
    ((ensureAndroidReadyWithRetry env retries st).trace.filterMap sleepMs =
      (List.range retries).map fun i => 1500 * (i + 1)) ∧
    List.Chain' (· < ·)
      ((ensureAndroidReadyWithRetry env retries st).trace.filterMap sleepMs) ∧
    (ensureAndroidReadyWithRetry env retries st).result = .error (err retries) := by
  have hmain := ensureLoop_allFail env err h retries 0 st
  have hzero : ∀ j : Nat, 0 + j = j := fun j => by omega
  have hmain' : ensureAndroidReadyWithRetry env retries st =
      ⟨(List.range (retries + 1)).flatMap fun j =>
          Cmd.invokeStartOrHeal ::
            ((startOrHealAndroid (env j) (attemptState env st 0 j)).trace ++
              ([Cmd.adbStartServer] ++
                if j < retries then [Cmd.sleep (1500 * (j + 1))] else [])),
        attemptState env st 0 (retries + 1),
        .error (err retries)⟩ := by
    unfold ensureAndroidReadyWithRetry
    rw [hmain]
    simp
  refine ⟨hmain', ?_, ?_, ?_, ?_⟩
  · rw [hmain']
    show ((List.range (retries + 1)).flatMap _).count Cmd.invokeStartOrHeal = retries + 1
    rw [count_flatMap_ones _ _ fun j _ => by
      simpa [hzero j] using allFail_block_count env st 0 retries j]
    exact List.length_range (retries + 1)
  · rw [hmain']
    show ((List.range (retries + 1)).flatMap _).filterMap sleepMs = _
    rw [filterMap_flatMap sleepMs]
    have hblocks : (fun j =>
        ((Cmd.invokeStartOrHeal ::
          ((startOrHealAndroid (env j) (attemptState env st 0 j)).trace ++
            ([Cmd.adbStartServer] ++
              if j < retries then [Cmd.sleep (1500 * (j + 1))] else []))).filterMap
          sleepMs)) = (fun j => if j < retries then [1500 * (j + 1)] else []) := by
      funext j
      simpa [hzero j] using allFail_block_sleeps env st 0 retries j
    rw [hblocks, List.range_succ, List.flatMap_append,
      flatMap_singletons (List.range retries) _ (fun i => 1500 * (i + 1))
        fun j hj => if_pos (List.mem_range.mp hj)]
    simp
  · rw [hmain']
    show List.Chain' (· < ·) (((List.range (retries + 1)).flatMap _).filterMap sleepMs)
    rw [filterMap_flatMap sleepMs]
    have hblocks : (fun j =>
        ((Cmd.invokeStartOrHeal ::
          ((startOrHealAndroid (env j) (attemptState env st 0 j)).trace ++
            ([Cmd.adbStartServer] ++
              if j < retries then [Cmd.sleep (1500 * (j + 1))] else []))).filterMap
          sleepMs)) = (fun j => if j < retries then [1500 * (j + 1)] else []) := by
      funext j
      simpa [hzero j] using allFail_block_sleeps env st 0 retries j
    rw [hblocks, List.range_succ, List.flatMap_append,
      flatMap_singletons (List.range retries) _ (fun i => 1500 * (i + 1))
        fun j hj => if_pos (List.mem_range.mp hj)]
    simp only [List.flatMap_cons, List.flatMap_nil, Nat.lt_irrefl, if_false,
      List.append_nil]
    exact ((List.pairwise_lt_range retries).map _
      fun a b hab => by omega).chain'
  · rw [hmain']

/-- A concrete Android environment in which every attempt fails: an AVD
name is configured but no device ever appears (boot times out). -/
def androidEnvFail : AndroidEnv :=
  { optAvdName := some "Pixel_6_API_34"
    envAvdName := none
    adbStdout := "List of devices attached\n"
    healthy := fun _ => false
    coldRestartFlag := none
    coldBootCfg := false
    emuKillOk := true
    bootSerial := none
    bootCompleteOk := false
    waitHealthyOk := false }

/-- C1 (witness): with the default retry count 2 and every attempt
failing with a boot timeout, the loop runs the sequence 3 times, sleeps
1500 then 3000 ms (strictly increasing), and raises the boot-timeout
error. -/
theorem ensureAndroidReady_allFail_backoff_witness :
    ((ensureAndroidReadyWithRetry (fun _ => androidEnvFail) 2 initState).trace.count
        Cmd.invokeStartOrHeal = 3) ∧
    ((ensureAndroidReadyWithRetry (fun _ => androidEnvFail) 2 initState).trace.filterMap
        sleepMs = [1500, 3000]) ∧
    List.Chain' (· < ·)
      ((ensureAndroidReadyWithRetry (fun _ => androidEnvFail) 2 initState).trace.filterMap
        sleepMs) ∧
    ((ensureAndroidReadyWithRetry (fun _ => androidEnvFail) 2 initState).result =
      .error "[android] emulator did not appear in adb devices within timeout") := by
  have h := ensureAndroidReady_allFail_backoff (fun _ => androidEnvFail)
    (fun _ => "[android] emulator did not appear in adb devices within timeout") 2
    initState (fun i s => rfl)
  refine ⟨h.2.1, ?_, h.2.2.2.1, h.2.2.2.2⟩
  rw [h.2.2.1]
  rfl
